import Mathlib

/-!
Verification of the `price_indices` bilateral price-index library.

The library computes bilateral price indices from two price maps (base
period `0` and comparison period `t`), optionally with quantity maps, and
offers for every formula a tabular adapter extracting the maps from a flat
observation table.  We embed the dictionary path and the tabular path over
the real numbers and prove the specified algebraic, error-handling and
concrete-scenario properties.

Modelling conventions:
* A Python dictionary `Dict[str, float]` is a `PMap`: a finite key set and a
  total valuation function (only values on the key set are ever read).
* Floating-point arithmetic is modelled by exact real arithmetic.
* Python exceptions are modelled by `Except Err`.  A `ValueError` with the
  no-matched-products message is `Err.noMatchedProducts`; the explicit BMW
  denominator check raises `Err.zeroDenominator`; the `AttributeError` raised
  by the adapters' required-column check is `Err.missingColumns`; a pandas
  `KeyError` from accessing an absent column is `Err.keyError`.
* Python float division raises `ZeroDivisionError` when the divisor is zero.
  Division in the embedding is total real division except at the Sato-Vartia
  logarithmic-mean weight, the one division site that is reachable with
  strictly positive data; there the dictionary path raises
  `Err.zeroDivision`.  All other denominators are strictly positive on the
  functions' valid domains (several theorems below prove this).
* In the numpy-based tabular path, `0.0/0.0` yields `NaN` instead of raising;
  a `NaN` produced by a degenerate Sato-Vartia weight propagates through the
  remaining arithmetic to the returned value.  The embedding makes this
  explicit as `Err.nanResult`.
-/

open scoped BigOperators
open scoped Classical

/-- Outcomes of a failed call, mirroring the distinct Python conditions. -/
inductive Err where
  /-- `ValueError("No matched products found.")` (empty basket). -/
  | noMatchedProducts : Err
  /-- `ValueError("Denominator is zero, cannot compute BMW index.")`. -/
  | zeroDenominator : Err
  /-- A runtime `ZeroDivisionError` from float division by zero. -/
  | zeroDivision : Err
  /-- `AttributeError("DataFrame does not contain the necessary columns")`. -/
  | missingColumns : Err
  /-- pandas `KeyError` from accessing an absent column. -/
  | keyError : String → Err
  /-- A numpy `NaN` propagated to the returned value. -/
  | nanResult : Err
deriving DecidableEq

/-- A Python `Dict[str, float]`: a finite set of keys and the stored values
(the valuation is total; only values at keys in `keys` are ever read). -/
structure PMap where
  keys : Finset String
  val : String → ℝ

/-- Adding one entry to a dictionary: `d[k] = v`. -/
def PMap.insert (d : PMap) (k : String) (v : ℝ) : PMap :=
  ⟨Insert.insert k d.keys, Function.update d.val k v⟩

/-- `DEFAULT_NORMALIZATION_VAL = 100.0`. -/
def DEFAULT_NORMALIZATION_VAL : ℝ := 100.0

/-- Jevons index (dictionary path): product over the matched set of
`(p_t / p_0) ** (1/n)`, times the normalization value. -/
noncomputable def jevons_index (prices_0 prices_t : PMap)
    (normalization_value : ℝ) : Except Err ℝ :=
  let matched_products := prices_0.keys ∩ prices_t.keys
  if matched_products = ∅ then .error .noMatchedProducts
  else .ok ((∏ i ∈ matched_products,
      (prices_t.val i / prices_0.val i) ^ ((1 : ℝ) / matched_products.card))
    * normalization_value)

/-- Dutot index (dictionary path): ratio of matched price sums. -/
noncomputable def dutot_index (prices_0 prices_t : PMap)
    (normalization_value : ℝ) : Except Err ℝ :=
  let matched_products := prices_0.keys ∩ prices_t.keys
  if matched_products = ∅ then .error .noMatchedProducts
  else .ok (((∑ i ∈ matched_products, prices_t.val i)
      / (∑ i ∈ matched_products, prices_0.val i)) * normalization_value)

/-- Carli index (dictionary path): arithmetic mean of matched price
relatives. -/
noncomputable def carli_index (prices_0 prices_t : PMap)
    (normalization_value : ℝ) : Except Err ℝ :=
  let matched_products := prices_0.keys ∩ prices_t.keys
  if matched_products = ∅ then .error .noMatchedProducts
  else .ok (((∑ i ∈ matched_products, prices_t.val i / prices_0.val i)
      / matched_products.card) * normalization_value)

/-- BMW index (dictionary path): ratios weighted by `(p_0/p_t) ** 0.5`, with
the source's explicit zero-denominator check. -/
noncomputable def bmw_index (prices_0 prices_t : PMap)
    (normalization_value : ℝ) : Except Err ℝ :=
  let matched_products := prices_0.keys ∩ prices_t.keys
  if matched_products = ∅ then .error .noMatchedProducts
  else
    let numerator := ∑ i ∈ matched_products,
      (prices_t.val i / prices_0.val i)
        * (prices_0.val i / prices_t.val i) ^ ((1 : ℝ) / 2)
    let denominator := ∑ i ∈ matched_products,
      (prices_0.val i / prices_t.val i) ^ ((1 : ℝ) / 2)
    if denominator = 0 then .error .zeroDenominator
    else .ok ((numerator / denominator) * normalization_value)

/-- Laspeyres index (dictionary path): `Σ(q0·pt) / Σ(q0·p0)`. -/
noncomputable def laspeyres_index (prices_0 prices_t quantities_0 : PMap)
    (normalization_value : ℝ) : Except Err ℝ :=
  let matched_products := prices_0.keys ∩ prices_t.keys ∩ quantities_0.keys
  if matched_products = ∅ then .error .noMatchedProducts
  else .ok (((∑ i ∈ matched_products, quantities_0.val i * prices_t.val i)
      / (∑ i ∈ matched_products, quantities_0.val i * prices_0.val i))
    * normalization_value)

/-- Paasche index (dictionary path): `Σ(qt·pt) / Σ(qt·p0)`. -/
noncomputable def paasche_index (prices_0 prices_t quantities_t : PMap)
    (normalization_value : ℝ) : Except Err ℝ :=
  let matched_products := prices_0.keys ∩ prices_t.keys ∩ quantities_t.keys
  if matched_products = ∅ then .error .noMatchedProducts
  else .ok (((∑ i ∈ matched_products, quantities_t.val i * prices_t.val i)
      / (∑ i ∈ matched_products, quantities_t.val i * prices_0.val i))
    * normalization_value)

/-- Fisher index (dictionary path): square root of the product of the
already-normalized Laspeyres and Paasche sub-results. -/
noncomputable def fisher_index (prices_0 prices_t quantities_0 quantities_t : PMap)
    (normalization_value : ℝ) : Except Err ℝ := do
  let laspeyres ← laspeyres_index prices_0 prices_t quantities_0 normalization_value
  let paasche ← paasche_index prices_0 prices_t quantities_t normalization_value
  pure (Real.sqrt (laspeyres * paasche))

/-- The expenditure share of product `i` in one period: its price times
quantity divided by the total expenditure over the matched set `m` (the
locals `s_0/total_0` and `s_t/total_t` of the Törnqvist and Sato-Vartia
functions). -/
noncomputable def expShare (p q : PMap) (m : Finset String) (i : String) : ℝ :=
  p.val i * q.val i / ∑ j ∈ m, p.val j * q.val j

/-- The Sato-Vartia logarithmic-mean weight of product `i` (the local `phi`
of `sato_vartia_index`, before normalization by the weight sum). -/
noncomputable def svWeight (p0 pt q0 qt : PMap) (m : Finset String) (i : String) : ℝ :=
  (expShare pt qt m i - expShare p0 q0 m i)
    / (Real.log (expShare pt qt m i) - Real.log (expShare p0 q0 m i))

/-- Törnqvist index (dictionary path): `exp(Σ ((s0+st)/2)·log(pt/p0))` with
expenditure shares `s0`, `st`. -/
noncomputable def tornqvist_index (prices_0 prices_t quantities_0 quantities_t : PMap)
    (normalization_value : ℝ) : Except Err ℝ :=
  let matched_products :=
    prices_0.keys ∩ prices_t.keys ∩ quantities_0.keys ∩ quantities_t.keys
  if matched_products = ∅ then .error .noMatchedProducts
  else
    let log_index := ∑ i ∈ matched_products,
      ((expShare prices_0 quantities_0 matched_products i
          + expShare prices_t quantities_t matched_products i) / 2)
        * Real.log (prices_t.val i / prices_0.val i)
    .ok (Real.exp log_index * normalization_value)

/-- Walsh index (dictionary path): `Σ(sqrt(q0·qt)·pt) / Σ(sqrt(q0·qt)·p0)`. -/
noncomputable def walsh_index (prices_0 prices_t quantities_0 quantities_t : PMap)
    (normalization_value : ℝ) : Except Err ℝ :=
  let matched_products :=
    prices_0.keys ∩ prices_t.keys ∩ quantities_0.keys ∩ quantities_t.keys
  if matched_products = ∅ then .error .noMatchedProducts
  else
    let numerator := ∑ i ∈ matched_products,
      Real.sqrt (quantities_0.val i * quantities_t.val i) * prices_t.val i
    let denominator := ∑ i ∈ matched_products,
      Real.sqrt (quantities_0.val i * quantities_t.val i) * prices_0.val i
    .ok ((numerator / denominator) * normalization_value)

/-- Sato-Vartia index (dictionary path).  The logarithmic-mean weight
`(st-s0)/(log st - log s0)` is computed with no degeneracy guard in the
source; when the denominator is zero for some matched product, or when the
accumulated weight sum is zero, Python float division raises
`ZeroDivisionError`, modelled as `Err.zeroDivision`. -/
noncomputable def sato_vartia_index (prices_0 prices_t quantities_0 quantities_t : PMap)
    (normalization_value : ℝ) : Except Err ℝ :=
  let matched_products :=
    prices_0.keys ∩ prices_t.keys ∩ quantities_0.keys ∩ quantities_t.keys
  if matched_products = ∅ then .error .noMatchedProducts
  else if ∃ i ∈ matched_products,
      Real.log (expShare prices_t quantities_t matched_products i)
        - Real.log (expShare prices_0 quantities_0 matched_products i) = 0 then
    .error .zeroDivision
  else
    let denominator := ∑ i ∈ matched_products,
      svWeight prices_0 prices_t quantities_0 quantities_t matched_products i
    if denominator = 0 then .error .zeroDivision
    else .ok (Real.exp (∑ i ∈ matched_products,
        (svWeight prices_0 prices_t quantities_0 quantities_t matched_products i
            / denominator)
          * Real.log (prices_t.val i / prices_0.val i))
      * normalization_value)

/-- A cell of an observation table: product identifiers are strings, time
periods integers, prices and quantities floats. -/
inductive Cell where
  | str : String → Cell
  | int : Int → Cell
  | num : ℝ → Cell

/-- The string content of a cell (product-identifier columns). -/
def Cell.asStr : Cell → String
  | .str s => s
  | _ => ""

/-- The numeric content of a cell (pandas upcasts integer columns when they
enter float arithmetic). -/
noncomputable def Cell.asReal : Cell → ℝ
  | .num x => x
  | .int n => (n : ℝ)
  | .str _ => 0

/-- `df[time_period_col] == period`: an equality test of a cell against an
integer period selector. -/
def Cell.isPeriod : Cell → Int → Bool
  | .int n, p => n == p
  | _, _ => false

/-- A pandas `DataFrame`: a set of column names and a list of rows, each row
assigning a cell to every column name (only columns in `cols` exist; access
to any other column raises `KeyError`). -/
structure DataFrame where
  cols : Finset String
  rows : List (String → Cell)

/-- `df[df[time_period_col] == period].set_index(product_id_col)[value_col]`:
filter the rows by period, reindex by product identifier and read off the
requested value column as a product-keyed series. -/
noncomputable def DataFrame.series (df : DataFrame) (period : Int)
    (product_id_col value_col time_period_col : String) : PMap :=
  let filtered := df.rows.filter (fun row => (row time_period_col).isPeriod period)
  { keys := (filtered.map (fun row => (row product_id_col).asStr)).toFinset
    val := fun k =>
      match filtered.find? (fun row => (row product_id_col).asStr == k) with
      | some row => (row value_col).asReal
      | none => 0 }

/-- Jevons index (tabular path): checks the required columns, extracts the
two period series and computes `exp(mean(log ratios)))`. -/
noncomputable def jevons_index_from_df (df : DataFrame)
    (base_period compared_period : Int)
    (price_col product_id_col time_period_col : String)
    (normalization_value : ℝ) : Except Err ℝ :=
  if ¬ ({price_col, product_id_col, time_period_col} : Finset String) ⊆ df.cols
  then .error .missingColumns
  else
    let prices_0 := df.series base_period product_id_col price_col time_period_col
    let prices_t := df.series compared_period product_id_col price_col time_period_col
    let matched_products := prices_0.keys ∩ prices_t.keys
    if matched_products = ∅ then .error .noMatchedProducts
    else .ok (Real.exp ((∑ i ∈ matched_products,
        Real.log (prices_t.val i / prices_0.val i)) / matched_products.card)
      * normalization_value)

/-- Dutot index (tabular path).  Unlike every other adapter, the source has
no required-columns check: the first access to an absent column raises a
pandas `KeyError`, in the order the columns are touched
(`time_period_col` by the filter, `product_id_col` by `set_index`, then
`price_col`). -/
noncomputable def dutot_index_from_df (df : DataFrame)
    (base_period compared_period : Int)
    (price_col product_id_col time_period_col : String)
    (normalization_value : ℝ) : Except Err ℝ :=
  if time_period_col ∉ df.cols then .error (.keyError time_period_col)
  else if product_id_col ∉ df.cols then .error (.keyError product_id_col)
  else if price_col ∉ df.cols then .error (.keyError price_col)
  else
    let prices_0 := df.series base_period product_id_col price_col time_period_col
    let prices_t := df.series compared_period product_id_col price_col time_period_col
    let matched_products := prices_0.keys ∩ prices_t.keys
    if matched_products = ∅ then .error .noMatchedProducts
    else .ok (((∑ i ∈ matched_products, prices_t.val i)
        / (∑ i ∈ matched_products, prices_0.val i)) * normalization_value)

/-- Carli index (tabular path): mean of the matched price relatives. -/
noncomputable def carli_index_from_df (df : DataFrame)
    (base_period compared_period : Int)
    (price_col product_id_col time_period_col : String)
    (normalization_value : ℝ) : Except Err ℝ :=
  if ¬ ({price_col, product_id_col, time_period_col} : Finset String) ⊆ df.cols
  then .error .missingColumns
  else
    let prices_0 := df.series base_period product_id_col price_col time_period_col
    let prices_t := df.series compared_period product_id_col price_col time_period_col
    let matched_products := prices_0.keys ∩ prices_t.keys
    if matched_products = ∅ then .error .noMatchedProducts
    else .ok (((∑ i ∈ matched_products, prices_t.val i / prices_0.val i)
        / matched_products.card) * normalization_value)

/-- BMW index (tabular path): `np.sqrt` weights with the explicit
zero-denominator check. -/
noncomputable def bmw_index_from_df (df : DataFrame)
    (base_period compared_period : Int)
    (price_col product_id_col time_period_col : String)
    (normalization_value : ℝ) : Except Err ℝ :=
  if ¬ ({price_col, product_id_col, time_period_col} : Finset String) ⊆ df.cols
  then .error .missingColumns
  else
    let prices_0 := df.series base_period product_id_col price_col time_period_col
    let prices_t := df.series compared_period product_id_col price_col time_period_col
    let matched_products := prices_0.keys ∩ prices_t.keys
    if matched_products = ∅ then .error .noMatchedProducts
    else
      let numerator := ∑ i ∈ matched_products,
        (prices_t.val i / prices_0.val i)
          * Real.sqrt (prices_0.val i / prices_t.val i)
      let denominator := ∑ i ∈ matched_products,
        Real.sqrt (prices_0.val i / prices_t.val i)
      if denominator = 0 then .error .zeroDenominator
      else .ok ((numerator / denominator) * normalization_value)

/-- Laspeyres index (tabular path). -/
noncomputable def laspeyres_index_from_df (df : DataFrame)
    (base_period compared_period : Int)
    (price_col quantity_col product_id_col time_period_col : String)
    (normalization_value : ℝ) : Except Err ℝ :=
  if ¬ ({price_col, quantity_col, product_id_col, time_period_col} : Finset String)
      ⊆ df.cols
  then .error .missingColumns
  else
    let prices_0 := df.series base_period product_id_col price_col time_period_col
    let prices_t := df.series compared_period product_id_col price_col time_period_col
    let quantities_0 := df.series base_period product_id_col quantity_col time_period_col
    let matched_products := prices_0.keys ∩ prices_t.keys ∩ quantities_0.keys
    if matched_products = ∅ then .error .noMatchedProducts
    else .ok (((∑ i ∈ matched_products, quantities_0.val i * prices_t.val i)
        / (∑ i ∈ matched_products, quantities_0.val i * prices_0.val i))
      * normalization_value)

/-- Paasche index (tabular path). -/
noncomputable def paasche_index_from_df (df : DataFrame)
    (base_period compared_period : Int)
    (price_col quantity_col product_id_col time_period_col : String)
    (normalization_value : ℝ) : Except Err ℝ :=
  if ¬ ({price_col, quantity_col, product_id_col, time_period_col} : Finset String)
      ⊆ df.cols
  then .error .missingColumns
  else
    let prices_0 := df.series base_period product_id_col price_col time_period_col
    let prices_t := df.series compared_period product_id_col price_col time_period_col
    let quantities_t := df.series compared_period product_id_col quantity_col time_period_col
    let matched_products := prices_0.keys ∩ prices_t.keys ∩ quantities_t.keys
    if matched_products = ∅ then .error .noMatchedProducts
    else .ok (((∑ i ∈ matched_products, quantities_t.val i * prices_t.val i)
        / (∑ i ∈ matched_products, quantities_t.val i * prices_0.val i))
      * normalization_value)

/-- Fisher index (tabular path): delegates to the Laspeyres and Paasche
adapters (whose column checks it therefore inherits). -/
noncomputable def fisher_index_from_df (df : DataFrame)
    (base_period compared_period : Int)
    (price_col quantity_col product_id_col time_period_col : String)
    (normalization_value : ℝ) : Except Err ℝ := do
  let laspeyres ← laspeyres_index_from_df df base_period compared_period
    price_col quantity_col product_id_col time_period_col normalization_value
  let paasche ← paasche_index_from_df df base_period compared_period
    price_col quantity_col product_id_col time_period_col normalization_value
  pure (Real.sqrt (laspeyres * paasche))

/-- Törnqvist index (tabular path). -/
noncomputable def tornqvist_index_from_df (df : DataFrame)
    (base_period compared_period : Int)
    (price_col quantity_col product_id_col time_period_col : String)
    (normalization_value : ℝ) : Except Err ℝ :=
  if ¬ ({price_col, quantity_col, product_id_col, time_period_col} : Finset String)
      ⊆ df.cols
  then .error .missingColumns
  else
    let prices_0 := df.series base_period product_id_col price_col time_period_col
    let prices_t := df.series compared_period product_id_col price_col time_period_col
    let quantities_0 := df.series base_period product_id_col quantity_col time_period_col
    let quantities_t := df.series compared_period product_id_col quantity_col time_period_col
    let matched_products :=
      prices_0.keys ∩ prices_t.keys ∩ quantities_0.keys ∩ quantities_t.keys
    if matched_products = ∅ then .error .noMatchedProducts
    else
      let log_index := ∑ i ∈ matched_products,
        ((expShare prices_0 quantities_0 matched_products i
            + expShare prices_t quantities_t matched_products i) / 2)
          * Real.log (prices_t.val i / prices_0.val i)
      .ok (Real.exp log_index * normalization_value)

/-- Walsh index (tabular path). -/
noncomputable def walsh_index_from_df (df : DataFrame)
    (base_period compared_period : Int)
    (price_col quantity_col product_id_col time_period_col : String)
    (normalization_value : ℝ) : Except Err ℝ :=
  if ¬ ({price_col, quantity_col, product_id_col, time_period_col} : Finset String)
      ⊆ df.cols
  then .error .missingColumns
  else
    let prices_0 := df.series base_period product_id_col price_col time_period_col
    let prices_t := df.series compared_period product_id_col price_col time_period_col
    let quantities_0 := df.series base_period product_id_col quantity_col time_period_col
    let quantities_t := df.series compared_period product_id_col quantity_col time_period_col
    let matched_products :=
      prices_0.keys ∩ prices_t.keys ∩ quantities_0.keys ∩ quantities_t.keys
    if matched_products = ∅ then .error .noMatchedProducts
    else
      let numerator := ∑ i ∈ matched_products,
        Real.sqrt (quantities_0.val i * quantities_t.val i) * prices_t.val i
      let denominator := ∑ i ∈ matched_products,
        Real.sqrt (quantities_0.val i * quantities_t.val i) * prices_0.val i
      .ok ((numerator / denominator) * normalization_value)

/-- Sato-Vartia index (tabular path).  The numpy weight vector
`(st-s0)/(log(st)-log(s0))` is computed with no degeneracy guard; a zero
denominator yields a `NaN` entry which propagates through the weight
normalization, the dot product and `exp` to the returned value
(`Err.nanResult`); numpy raises no exception. -/
noncomputable def sato_vartia_index_from_df (df : DataFrame)
    (base_period compared_period : Int)
    (price_col quantity_col product_id_col time_period_col : String)
    (normalization_value : ℝ) : Except Err ℝ :=
  if ¬ ({price_col, quantity_col, product_id_col, time_period_col} : Finset String)
      ⊆ df.cols
  then .error .missingColumns
  else
    let prices_0 := df.series base_period product_id_col price_col time_period_col
    let prices_t := df.series compared_period product_id_col price_col time_period_col
    let quantities_0 := df.series base_period product_id_col quantity_col time_period_col
    let quantities_t := df.series compared_period product_id_col quantity_col time_period_col
    let matched_products :=
      prices_0.keys ∩ prices_t.keys ∩ quantities_0.keys ∩ quantities_t.keys
    if matched_products = ∅ then .error .noMatchedProducts
    else if ∃ i ∈ matched_products,
        Real.log (expShare prices_t quantities_t matched_products i)
          - Real.log (expShare prices_0 quantities_0 matched_products i) = 0 then
      .error .nanResult
    else
      let phi_sum := ∑ i ∈ matched_products,
        svWeight prices_0 prices_t quantities_0 quantities_t matched_products i
      .ok (Real.exp (∑ i ∈ matched_products,
          (svWeight prices_0 prices_t quantities_0 quantities_t matched_products i
              / phi_sum)
            * Real.log (prices_t.val i / prices_0.val i))
        * normalization_value)

/-! ### Basic branch lemmas for the dictionary path -/

lemma jevons_index_ok (p0 pt : PMap) (nv : ℝ) (h : p0.keys ∩ pt.keys ≠ ∅) :
    jevons_index p0 pt nv =
      .ok ((∏ i ∈ p0.keys ∩ pt.keys,
        (pt.val i / p0.val i) ^ ((1 : ℝ) / (p0.keys ∩ pt.keys).card)) * nv) := by
  simp only [jevons_index, if_neg h]

lemma dutot_index_ok (p0 pt : PMap) (nv : ℝ) (h : p0.keys ∩ pt.keys ≠ ∅) :
    dutot_index p0 pt nv =
      .ok (((∑ i ∈ p0.keys ∩ pt.keys, pt.val i)
        / (∑ i ∈ p0.keys ∩ pt.keys, p0.val i)) * nv) := by
  simp only [dutot_index, if_neg h]

lemma carli_index_ok (p0 pt : PMap) (nv : ℝ) (h : p0.keys ∩ pt.keys ≠ ∅) :
    carli_index p0 pt nv =
      .ok (((∑ i ∈ p0.keys ∩ pt.keys, pt.val i / p0.val i)
        / (p0.keys ∩ pt.keys).card) * nv) := by
  simp only [carli_index, if_neg h]

lemma bmw_index_ok (p0 pt : PMap) (nv : ℝ) (h : p0.keys ∩ pt.keys ≠ ∅)
    (hd : (∑ i ∈ p0.keys ∩ pt.keys, (p0.val i / pt.val i) ^ ((1 : ℝ) / 2)) ≠ 0) :
    bmw_index p0 pt nv =
      .ok (((∑ i ∈ p0.keys ∩ pt.keys,
          (pt.val i / p0.val i) * (p0.val i / pt.val i) ^ ((1 : ℝ) / 2))
        / (∑ i ∈ p0.keys ∩ pt.keys, (p0.val i / pt.val i) ^ ((1 : ℝ) / 2))) * nv) := by
  simp only [bmw_index, if_neg h, if_neg hd]

lemma laspeyres_index_ok (p0 pt q0 : PMap) (nv : ℝ)
    (h : p0.keys ∩ pt.keys ∩ q0.keys ≠ ∅) :
    laspeyres_index p0 pt q0 nv =
      .ok (((∑ i ∈ p0.keys ∩ pt.keys ∩ q0.keys, q0.val i * pt.val i)
        / (∑ i ∈ p0.keys ∩ pt.keys ∩ q0.keys, q0.val i * p0.val i)) * nv) := by
  simp only [laspeyres_index, if_neg h]

lemma paasche_index_ok (p0 pt qt : PMap) (nv : ℝ)
    (h : p0.keys ∩ pt.keys ∩ qt.keys ≠ ∅) :
    paasche_index p0 pt qt nv =
      .ok (((∑ i ∈ p0.keys ∩ pt.keys ∩ qt.keys, qt.val i * pt.val i)
        / (∑ i ∈ p0.keys ∩ pt.keys ∩ qt.keys, qt.val i * p0.val i)) * nv) := by
  simp only [paasche_index, if_neg h]

lemma tornqvist_index_ok (p0 pt q0 qt : PMap) (nv : ℝ)
    (h : p0.keys ∩ pt.keys ∩ q0.keys ∩ qt.keys ≠ ∅) :
    tornqvist_index p0 pt q0 qt nv =
      .ok (Real.exp (∑ i ∈ p0.keys ∩ pt.keys ∩ q0.keys ∩ qt.keys,
        ((expShare p0 q0 (p0.keys ∩ pt.keys ∩ q0.keys ∩ qt.keys) i
            + expShare pt qt (p0.keys ∩ pt.keys ∩ q0.keys ∩ qt.keys) i) / 2)
          * Real.log (pt.val i / p0.val i)) * nv) := by
  simp only [tornqvist_index, if_neg h]

lemma sato_vartia_index_ok (p0 pt q0 qt : PMap) (nv : ℝ)
    (h : p0.keys ∩ pt.keys ∩ q0.keys ∩ qt.keys ≠ ∅)
    (hnd : ∀ i ∈ p0.keys ∩ pt.keys ∩ q0.keys ∩ qt.keys,
      Real.log (expShare pt qt (p0.keys ∩ pt.keys ∩ q0.keys ∩ qt.keys) i)
        - Real.log (expShare p0 q0 (p0.keys ∩ pt.keys ∩ q0.keys ∩ qt.keys) i) ≠ 0)
    (hds : (∑ i ∈ p0.keys ∩ pt.keys ∩ q0.keys ∩ qt.keys,
      svWeight p0 pt q0 qt (p0.keys ∩ pt.keys ∩ q0.keys ∩ qt.keys) i) ≠ 0) :
    sato_vartia_index p0 pt q0 qt nv =
      .ok (Real.exp (∑ i ∈ p0.keys ∩ pt.keys ∩ q0.keys ∩ qt.keys,
        (svWeight p0 pt q0 qt (p0.keys ∩ pt.keys ∩ q0.keys ∩ qt.keys) i
            / ∑ j ∈ p0.keys ∩ pt.keys ∩ q0.keys ∩ qt.keys,
              svWeight p0 pt q0 qt (p0.keys ∩ pt.keys ∩ q0.keys ∩ qt.keys) j)
          * Real.log (pt.val i / p0.val i)) * nv) := by
  have hne : ¬ ∃ i ∈ p0.keys ∩ pt.keys ∩ q0.keys ∩ qt.keys,
      Real.log (expShare pt qt (p0.keys ∩ pt.keys ∩ q0.keys ∩ qt.keys) i)
        - Real.log (expShare p0 q0 (p0.keys ∩ pt.keys ∩ q0.keys ∩ qt.keys) i) = 0 := by
    rintro ⟨i, hi, hz⟩
    exact hnd i hi hz
  simp only [sato_vartia_index, if_neg h, if_neg hne, if_neg hds]

lemma walsh_index_ok (p0 pt q0 qt : PMap) (nv : ℝ)
    (h : p0.keys ∩ pt.keys ∩ q0.keys ∩ qt.keys ≠ ∅) :
    walsh_index p0 pt q0 qt nv =
      .ok (((∑ i ∈ p0.keys ∩ pt.keys ∩ q0.keys ∩ qt.keys,
          Real.sqrt (q0.val i * qt.val i) * pt.val i)
        / (∑ i ∈ p0.keys ∩ pt.keys ∩ q0.keys ∩ qt.keys,
          Real.sqrt (q0.val i * qt.val i) * p0.val i)) * nv) := by
  simp only [walsh_index, if_neg h]

/-! ### Positivity helpers -/

/-- The logarithmic mean of two distinct positive reals is positive. -/
lemma logmean_pos {a b : ℝ} (ha : 0 < a) (hb : 0 < b) (hab : a ≠ b) :
    0 < (b - a) / (Real.log b - Real.log a) := by
  rcases lt_or_gt_of_ne hab with hlt | hgt
  · exact div_pos (by linarith) (by
      have := Real.log_lt_log ha hlt
      linarith)
  · have hlog := Real.log_lt_log hb hgt
    have hnum : b - a < 0 := by linarith
    have hden : Real.log b - Real.log a < 0 := by linarith
    exact div_pos_of_neg_of_neg hnum hden

/-- A sum of strictly positive terms over a nonempty finite set is
positive. -/
lemma sum_pos_of_ne_empty {s : Finset String} {f : String → ℝ}
    (h : s ≠ ∅) (hf : ∀ i ∈ s, 0 < f i) : 0 < ∑ i ∈ s, f i :=
  Finset.sum_pos hf (Finset.nonempty_iff_ne_empty.mpr h)

lemma mem_matched2 {p0 pt : PMap} {i : String} (hi : i ∈ p0.keys ∩ pt.keys) :
    i ∈ p0.keys ∧ i ∈ pt.keys := by
  simpa [Finset.mem_inter] using hi

lemma mem_matched3 {p0 pt q : PMap} {i : String}
    (hi : i ∈ p0.keys ∩ pt.keys ∩ q.keys) :
    i ∈ p0.keys ∧ i ∈ pt.keys ∧ i ∈ q.keys := by
  simp only [Finset.mem_inter] at hi
  exact ⟨hi.1.1, hi.1.2, hi.2⟩

lemma mem_matched4 {p0 pt q0 qt : PMap} {i : String}
    (hi : i ∈ p0.keys ∩ pt.keys ∩ q0.keys ∩ qt.keys) :
    i ∈ p0.keys ∧ i ∈ pt.keys ∧ i ∈ q0.keys ∧ i ∈ qt.keys := by
  simp only [Finset.mem_inter] at hi
  exact ⟨hi.1.1.1, hi.1.1.2, hi.1.2, hi.2⟩

/-- An expenditure share over a nonempty matched set with positive prices and
quantities is positive. -/
lemma expShare_pos {p q : PMap} {m : Finset String} {i : String}
    (hm : m ≠ ∅) (hp : ∀ j ∈ m, 0 < p.val j) (hq : ∀ j ∈ m, 0 < q.val j)
    (hi : i ∈ m) : 0 < expShare p q m i :=
  div_pos (mul_pos (hp i hi) (hq i hi))
    (sum_pos_of_ne_empty hm fun j hj => mul_pos (hp j hj) (hq j hj))

/-- For positive distinct shares the Sato-Vartia logarithmic denominator is
nonzero (injectivity of `log` on the positives). -/
lemma sv_logdiff_ne {a b : ℝ} (ha : 0 < a) (hb : 0 < b) (hab : b ≠ a) :
    Real.log b - Real.log a ≠ 0 := by
  intro h
  exact hab (Real.log_injOn_pos (Set.mem_Ioi.mpr hb) (Set.mem_Ioi.mpr ha)
    (by linarith))

/-- For positive distinct shares the Sato-Vartia weight is positive. -/
lemma svWeight_pos {p0 pt q0 qt : PMap} {m : Finset String} {i : String}
    (h0 : 0 < expShare p0 q0 m i) (ht : 0 < expShare pt qt m i)
    (hne : expShare pt qt m i ≠ expShare p0 q0 m i) :
    0 < svWeight p0 pt q0 qt m i :=
  logmean_pos h0 ht fun h => hne h.symm

/-! ### Concrete data of the specification's concrete scenario -/

/-- `prices_0 = {"a": 100, "b": 200, "c": 300}`. -/
noncomputable def scnPrices0 : PMap :=
  ⟨{"a", "b", "c"}, fun s => if s = "a" then 100 else if s = "b" then 200 else 300⟩

/-- `prices_t = {"a": 110, "b": 190, "c": 310}`. -/
noncomputable def scnPricesT : PMap :=
  ⟨{"a", "b", "c"}, fun s => if s = "a" then 110 else if s = "b" then 190 else 310⟩

/-- `quantities_0 = {"a": 10, "b": 20, "c": 30}`. -/
noncomputable def scnQuantities0 : PMap :=
  ⟨{"a", "b", "c"}, fun s => if s = "a" then 10 else if s = "b" then 20 else 30⟩

/-- `quantities_t = {"a": 15, "b": 25, "c": 35}`. -/
noncomputable def scnQuantitiesT : PMap :=
  ⟨{"a", "b", "c"}, fun s => if s = "a" then 15 else if s = "b" then 25 else 35⟩

lemma sum_abc (f : String → ℝ) :
    ∑ i ∈ ({"a", "b", "c"} : Finset String), f i = f "a" + (f "b" + f "c") := by
  rw [show ({"a", "b", "c"} : Finset String) = insert "a" (insert "b" {"c"}) from rfl,
    Finset.sum_insert (by decide), Finset.sum_insert (by decide),
    Finset.sum_singleton]

lemma prod_abc (f : String → ℝ) :
    ∏ i ∈ ({"a", "b", "c"} : Finset String), f i = f "a" * (f "b" * f "c") := by
  rw [show ({"a", "b", "c"} : Finset String) = insert "a" (insert "b" {"c"}) from rfl,
    Finset.prod_insert (by decide), Finset.prod_insert (by decide),
    Finset.prod_singleton]

lemma scn_matched3q0 :
    scnPrices0.keys ∩ scnPricesT.keys ∩ scnQuantities0.keys
      = ({"a", "b", "c"} : Finset String) := by decide

lemma scn_matched3qt :
    scnPrices0.keys ∩ scnPricesT.keys ∩ scnQuantitiesT.keys
      = ({"a", "b", "c"} : Finset String) := by decide

lemma scn_matched4 :
    scnPrices0.keys ∩ scnPricesT.keys ∩ scnQuantities0.keys ∩ scnQuantitiesT.keys
      = ({"a", "b", "c"} : Finset String) := by decide

lemma fisher_index_ok (p0 pt q0 qt : PMap) (nv : ℝ)
    (hL : p0.keys ∩ pt.keys ∩ q0.keys ≠ ∅)
    (hP : p0.keys ∩ pt.keys ∩ qt.keys ≠ ∅) :
    fisher_index p0 pt q0 qt nv = .ok (Real.sqrt
      ((((∑ i ∈ p0.keys ∩ pt.keys ∩ q0.keys, q0.val i * pt.val i)
          / (∑ i ∈ p0.keys ∩ pt.keys ∩ q0.keys, q0.val i * p0.val i)) * nv)
        * (((∑ i ∈ p0.keys ∩ pt.keys ∩ qt.keys, qt.val i * pt.val i)
          / (∑ i ∈ p0.keys ∩ pt.keys ∩ qt.keys, qt.val i * p0.val i)) * nv))) := by
  rw [fisher_index, laspeyres_index_ok _ _ _ _ hL, paasche_index_ok _ _ _ _ hP]
  rfl

/-- C8: on the concrete scenario (`prices_0 = {a:100, b:200, c:300}`,
`prices_t = {a:110, b:190, c:310}`, `quantities_0 = {a:10, b:20, c:30}`,
`quantities_t = {a:15, b:25, c:35}`, normalization 100), Laspeyres returns
`14200/14000·100 ≈ 101.4286`, Paasche returns `17250/17000·100 ≈ 101.4706`
and Fisher returns the square root of their product, which lies between
`101.4495` and `101.4496`. -/
theorem C8_concrete_scenario :
    laspeyres_index scnPrices0 scnPricesT scnQuantities0 100
        = .ok (14200 / 14000 * 100) ∧
    paasche_index scnPrices0 scnPricesT scnQuantitiesT 100
        = .ok (17250 / 17000 * 100) ∧
    fisher_index scnPrices0 scnPricesT scnQuantities0 scnQuantitiesT 100
        = .ok (Real.sqrt ((14200 / 14000 * 100) * (17250 / 17000 * 100))) ∧
    101.4495 < Real.sqrt ((14200 / 14000 * 100) * (17250 / 17000 * 100)) ∧
    Real.sqrt ((14200 / 14000 * 100) * (17250 / 17000 * 100)) < 101.4496 := by
  have hL : scnPrices0.keys ∩ scnPricesT.keys ∩ scnQuantities0.keys ≠ ∅ := by
    rw [scn_matched3q0]; decide
  have hP : scnPrices0.keys ∩ scnPricesT.keys ∩ scnQuantitiesT.keys ≠ ∅ := by
    rw [scn_matched3qt]; decide
  refine ⟨?_, ?_, ?_, ?_, ?_⟩
  · rw [laspeyres_index_ok _ _ _ _ hL, scn_matched3q0]
    simp only [sum_abc]
    simp [scnPrices0, scnPricesT, scnQuantities0]
    norm_num
  · rw [paasche_index_ok _ _ _ _ hP, scn_matched3qt]
    simp only [sum_abc]
    simp [scnPrices0, scnPricesT, scnQuantitiesT]
    norm_num
  · rw [fisher_index_ok _ _ _ _ _ hL hP, scn_matched3q0, scn_matched3qt]
    simp only [sum_abc]
    simp [scnPrices0, scnPricesT, scnQuantities0, scnQuantitiesT]
    norm_num
  · rw [show ((101.4495 : ℝ)) = Real.sqrt (101.4495 ^ 2) from
      (Real.sqrt_sq (by norm_num)).symm]
    apply Real.sqrt_lt_sqrt (by positivity)
    norm_num
  · rw [show ((101.4496 : ℝ)) = Real.sqrt (101.4496 ^ 2) from
      (Real.sqrt_sq (by norm_num)).symm]
    apply Real.sqrt_lt_sqrt (by positivity)
    norm_num

lemma laspeyres_index_err (p0 pt q0 : PMap) (nv : ℝ)
    (h : p0.keys ∩ pt.keys ∩ q0.keys = ∅) :
    laspeyres_index p0 pt q0 nv = .error .noMatchedProducts := by
  simp only [laspeyres_index, if_pos h]

lemma paasche_index_err (p0 pt qt : PMap) (nv : ℝ)
    (h : p0.keys ∩ pt.keys ∩ qt.keys = ∅) :
    paasche_index p0 pt qt nv = .error .noMatchedProducts := by
  simp only [paasche_index, if_pos h]

/-- Inputs on which the four-way matched intersection is empty although both
Fisher sub-calls have nonempty matched sets: the base quantity map only
covers `"a"`, the comparison quantity map only `"b"`. -/
noncomputable def c4P0 : PMap := ⟨{"a", "b"}, fun _ => 1⟩

/-- Comparison prices of the Fisher counterexample input. -/
noncomputable def c4Pt : PMap := ⟨{"a", "b"}, fun _ => 1⟩

/-- Base quantities of the Fisher counterexample input. -/
noncomputable def c4Q0 : PMap := ⟨{"a"}, fun _ => 1⟩

/-- Comparison quantities of the Fisher counterexample input. -/
noncomputable def c4Qt : PMap := ⟨{"b"}, fun _ => 1⟩

/-- C4 (counterexample): the intersection of the product-identifier sets of
all four inputs `fisher_index` requires is empty, yet the call returns an
ordinary value instead of raising the empty-basket error: each sub-call has
its own nonempty three-way matched set. -/
theorem C4_fisher_counterexample :
    c4P0.keys ∩ c4Pt.keys ∩ c4Q0.keys ∩ c4Qt.keys = ∅ ∧
    fisher_index c4P0 c4Pt c4Q0 c4Qt 100 = .ok 100 := by
  constructor
  · decide
  · have hL : c4P0.keys ∩ c4Pt.keys ∩ c4Q0.keys ≠ ∅ := by decide
    have hP : c4P0.keys ∩ c4Pt.keys ∩ c4Qt.keys ≠ ∅ := by decide
    rw [fisher_index_ok _ _ _ _ _ hL hP,
      show c4P0.keys ∩ c4Pt.keys ∩ c4Q0.keys = {"a"} from by decide,
      show c4P0.keys ∩ c4Pt.keys ∩ c4Qt.keys = {"b"} from by decide]
    simp only [Finset.sum_singleton]
    simp [c4P0, c4Pt, c4Q0, c4Qt]

/-- C4 (amended): each of the nine non-composite dictionary-path functions
raises the empty-basket error whenever the intersection of its required
product-identifier sets is empty, with no partial result; `fisher_index`
raises it whenever either sub-call's required intersection (`prices_0`,
`prices_t` and one quantity map) is empty — in particular whenever
`prices_0` and `prices_t` have disjoint key sets — but an empty four-way
intersection alone need not raise. -/
theorem C4_empty_basket (p0 pt q0 qt : PMap) (nv : ℝ) :
    (p0.keys ∩ pt.keys = ∅ →
      jevons_index p0 pt nv = .error .noMatchedProducts) ∧
    (p0.keys ∩ pt.keys = ∅ →
      dutot_index p0 pt nv = .error .noMatchedProducts) ∧
    (p0.keys ∩ pt.keys = ∅ →
      carli_index p0 pt nv = .error .noMatchedProducts) ∧
    (p0.keys ∩ pt.keys = ∅ →
      bmw_index p0 pt nv = .error .noMatchedProducts) ∧
    (p0.keys ∩ pt.keys ∩ q0.keys = ∅ →
      laspeyres_index p0 pt q0 nv = .error .noMatchedProducts) ∧
    (p0.keys ∩ pt.keys ∩ qt.keys = ∅ →
      paasche_index p0 pt qt nv = .error .noMatchedProducts) ∧
    (p0.keys ∩ pt.keys ∩ q0.keys = ∅ ∨ p0.keys ∩ pt.keys ∩ qt.keys = ∅ →
      fisher_index p0 pt q0 qt nv = .error .noMatchedProducts) ∧
    (p0.keys ∩ pt.keys ∩ q0.keys ∩ qt.keys = ∅ →
      tornqvist_index p0 pt q0 qt nv = .error .noMatchedProducts) ∧
    (p0.keys ∩ pt.keys ∩ q0.keys ∩ qt.keys = ∅ →
      walsh_index p0 pt q0 qt nv = .error .noMatchedProducts) ∧
    (p0.keys ∩ pt.keys ∩ q0.keys ∩ qt.keys = ∅ →
      sato_vartia_index p0 pt q0 qt nv = .error .noMatchedProducts) := by
  refine ⟨fun h => ?_, fun h => ?_, fun h => ?_, fun h => ?_, fun h => ?_,
    fun h => ?_, fun h => ?_, fun h => ?_, fun h => ?_, fun h => ?_⟩
  · simp only [jevons_index, if_pos h]
  · simp only [dutot_index, if_pos h]
  · simp only [carli_index, if_pos h]
  · simp only [bmw_index, if_pos h]
  · simp only [laspeyres_index, if_pos h]
  · simp only [paasche_index, if_pos h]
  · rcases h with hL | hP
    · rw [fisher_index, laspeyres_index_err _ _ _ _ hL]
      rfl
    · by_cases hL0 : p0.keys ∩ pt.keys ∩ q0.keys = ∅
      · rw [fisher_index, laspeyres_index_err _ _ _ _ hL0]
        rfl
      · rw [fisher_index, laspeyres_index_ok _ _ _ _ hL0,
          paasche_index_err _ _ _ _ hP]
        rfl
  · simp only [tornqvist_index, if_pos h]
  · simp only [walsh_index, if_pos h]
  · simp only [sato_vartia_index, if_pos h]

/-- Disjoint-keyset base prices for the empty-basket witness. -/
noncomputable def disjP0 : PMap := ⟨{"a"}, fun _ => 1⟩

/-- Disjoint-keyset comparison prices for the empty-basket witness. -/
noncomputable def disjPt : PMap := ⟨{"b"}, fun _ => 1⟩

/-- C4 (witness): with `prices_0` keyed on `"a"` only and every other map
keyed on `"b"` only, all ten functions raise the empty-basket error. -/
theorem C4_empty_basket_witness :
    jevons_index disjP0 disjPt 100 = .error .noMatchedProducts ∧
    dutot_index disjP0 disjPt 100 = .error .noMatchedProducts ∧
    carli_index disjP0 disjPt 100 = .error .noMatchedProducts ∧
    bmw_index disjP0 disjPt 100 = .error .noMatchedProducts ∧
    laspeyres_index disjP0 disjPt disjPt 100 = .error .noMatchedProducts ∧
    paasche_index disjP0 disjPt disjPt 100 = .error .noMatchedProducts ∧
    fisher_index disjP0 disjPt disjPt disjPt 100 = .error .noMatchedProducts ∧
    tornqvist_index disjP0 disjPt disjPt disjPt 100 = .error .noMatchedProducts ∧
    walsh_index disjP0 disjPt disjPt disjPt 100 = .error .noMatchedProducts ∧
    sato_vartia_index disjP0 disjPt disjPt disjPt 100 = .error .noMatchedProducts := by
  have h := C4_empty_basket disjP0 disjPt disjPt disjPt 100
  exact ⟨h.1 (by decide), h.2.1 (by decide), h.2.2.1 (by decide),
    h.2.2.2.1 (by decide), h.2.2.2.2.1 (by decide), h.2.2.2.2.2.1 (by decide),
    h.2.2.2.2.2.2.1 (Or.inl (by decide)), h.2.2.2.2.2.2.2.1 (by decide),
    h.2.2.2.2.2.2.2.2.1 (by decide), h.2.2.2.2.2.2.2.2.2 (by decide)⟩

/-- With positive prices every BMW weight is positive, so the accumulated
weight denominator over a nonempty matched set is positive. -/
lemma bmw_denom_pos (p0 pt : PMap) (h : p0.keys ∩ pt.keys ≠ ∅)
    (h0 : ∀ i ∈ p0.keys ∩ pt.keys, 0 < p0.val i)
    (ht : ∀ i ∈ p0.keys ∩ pt.keys, 0 < pt.val i) :
    0 < ∑ i ∈ p0.keys ∩ pt.keys, (p0.val i / pt.val i) ^ ((1 : ℝ) / 2) :=
  sum_pos_of_ne_empty h fun i hi =>
    Real.rpow_pos_of_pos (div_pos (h0 i hi) (ht i hi)) _

/-- C5 (counterexample): no valid input to `bmw_index` (nonempty matched
set, strictly positive prices) with `p_0 == p_t` on the matched set makes
the accumulated weight denominator zero or takes the "Denominator is zero"
error branch: the claimed input does not exist. -/
theorem C5_bmw_counterexample :
    ¬ ∃ (p0 pt : PMap) (nv : ℝ),
      p0.keys ∩ pt.keys ≠ ∅ ∧
      (∀ i ∈ p0.keys ∩ pt.keys, 0 < p0.val i) ∧
      (∀ i ∈ p0.keys ∩ pt.keys, 0 < pt.val i) ∧
      (∀ i ∈ p0.keys ∩ pt.keys, pt.val i = p0.val i) ∧
      ((∑ i ∈ p0.keys ∩ pt.keys, (p0.val i / pt.val i) ^ ((1 : ℝ) / 2)) = 0 ∨
        bmw_index p0 pt nv = .error .zeroDenominator) := by
  rintro ⟨p0, pt, nv, hne, h0, ht, -, hbad⟩
  have hpos := bmw_denom_pos p0 pt hne h0 ht
  rcases hbad with hz | herr
  · exact absurd hz (ne_of_gt hpos)
  · rw [bmw_index_ok p0 pt nv hne (ne_of_gt hpos)] at herr
    exact Except.noConfusion herr

/-- With unchanged prices every BMW weight is `1`, the weight denominator is
the matched count, and the index evaluates to the normalization value. -/
lemma bmw_index_identity (p0 pt : PMap) (nv : ℝ)
    (hne : p0.keys ∩ pt.keys ≠ ∅)
    (h0 : ∀ i ∈ p0.keys ∩ pt.keys, 0 < p0.val i)
    (heq : ∀ i ∈ p0.keys ∩ pt.keys, pt.val i = p0.val i) :
    (∑ i ∈ p0.keys ∩ pt.keys, (p0.val i / pt.val i) ^ ((1 : ℝ) / 2))
        = (p0.keys ∩ pt.keys).card ∧
    bmw_index p0 pt nv = .ok nv := by
  have hterm : ∀ i ∈ p0.keys ∩ pt.keys,
      (p0.val i / pt.val i) ^ ((1 : ℝ) / 2) = 1 := by
    intro i hi
    rw [heq i hi, div_self (ne_of_gt (h0 i hi)), Real.one_rpow]
  have hcard : (0 : ℝ) < (p0.keys ∩ pt.keys).card := by
    have := Finset.card_pos.mpr (Finset.nonempty_iff_ne_empty.mpr hne)
    exact_mod_cast this
  have hden : (∑ i ∈ p0.keys ∩ pt.keys, (p0.val i / pt.val i) ^ ((1 : ℝ) / 2))
      = (p0.keys ∩ pt.keys).card := by
    rw [Finset.sum_congr rfl hterm, Finset.sum_const, nsmul_eq_mul, mul_one]
  refine ⟨hden, ?_⟩
  rw [bmw_index_ok p0 pt nv hne (by rw [hden]; exact ne_of_gt hcard)]
  have hnum : (∑ i ∈ p0.keys ∩ pt.keys,
      (pt.val i / p0.val i) * (p0.val i / pt.val i) ^ ((1 : ℝ) / 2))
      = (p0.keys ∩ pt.keys).card := by
    rw [Finset.sum_congr rfl fun i hi => by
      rw [hterm i hi, heq i hi, div_self (ne_of_gt (h0 i hi)), mul_one],
      Finset.sum_const, nsmul_eq_mul, mul_one]
  rw [hnum, hden, div_self (ne_of_gt hcard), one_mul]

/-- C5 (amended): for every valid input to `bmw_index` with `p_0 == p_t` on
the matched set, every weight `sqrt(p_0/p_t)` is exactly `1`, so the
accumulated weight denominator equals the number of matched products (hence
is nonzero), the "Denominator is zero" branch is not taken, and the index
returns the normalization value. -/
theorem C5_bmw_identity_denominator (p0 pt : PMap) (nv : ℝ)
    (hne : p0.keys ∩ pt.keys ≠ ∅)
    (h0 : ∀ i ∈ p0.keys ∩ pt.keys, 0 < p0.val i)
    (heq : ∀ i ∈ p0.keys ∩ pt.keys, pt.val i = p0.val i) :
    (∑ i ∈ p0.keys ∩ pt.keys, (p0.val i / pt.val i) ^ ((1 : ℝ) / 2))
        = (p0.keys ∩ pt.keys).card ∧
    bmw_index p0 pt nv = .ok nv :=
  bmw_index_identity p0 pt nv hne h0 heq

/-- C5 (witness): on `p_0 = p_t = {"a": 1}` the BMW weight denominator is
`1` (the matched count) and the index returns the normalization value. -/
theorem C5_bmw_identity_denominator_witness :
    (∑ i ∈ (⟨{"a"}, fun _ => 1⟩ : PMap).keys ∩ (⟨{"a"}, fun _ => 1⟩ : PMap).keys,
        ((⟨{"a"}, fun _ => 1⟩ : PMap).val i / (⟨{"a"}, fun _ => 1⟩ : PMap).val i)
          ^ ((1 : ℝ) / 2))
      = ((⟨{"a"}, fun _ => 1⟩ : PMap).keys ∩ (⟨{"a"}, fun _ => 1⟩ : PMap).keys).card ∧
    bmw_index ⟨{"a"}, fun _ => 1⟩ ⟨{"a"}, fun _ => 1⟩ 100 = .ok 100 :=
  C5_bmw_identity_denominator ⟨{"a"}, fun _ => 1⟩ ⟨{"a"}, fun _ => 1⟩ 100
    (by decide) (fun i _ => by norm_num) (fun i _ => rfl)

lemma ne_empty_of_subset {s t : Finset String} (h : s ⊆ t) (hs : s ≠ ∅) :
    t ≠ ∅ := fun ht => hs (Finset.subset_empty.mp (ht ▸ h))

lemma matched4_subset_paasche (p0 pt q0 qt : PMap) :
    p0.keys ∩ pt.keys ∩ q0.keys ∩ qt.keys ⊆ p0.keys ∩ pt.keys ∩ qt.keys := by
  intro x hx
  rcases mem_matched4 hx with ⟨h1, h2, -, h4⟩
  simp [Finset.mem_inter, h1, h2, h4]

/-- A one-product map with value `1` everywhere. -/
noncomputable def unitMap : PMap := ⟨{"a"}, fun _ => 1⟩

/-- C2 (counterexample): with all prices and quantities `1` — so
`prices_t == prices_0`, a nonempty matched set and strictly positive data —
the Sato-Vartia expenditure shares coincide, the logarithmic-mean weight
divides by zero and `sato_vartia_index` raises `ZeroDivisionError` instead
of returning `1.0 × 100`. -/
theorem C2_identity_counterexample :
    unitMap.keys ∩ unitMap.keys ∩ unitMap.keys ∩ unitMap.keys ≠ ∅ ∧
    (∀ i ∈ unitMap.keys, 0 < unitMap.val i) ∧
    (∀ i ∈ unitMap.keys ∩ unitMap.keys, unitMap.val i = unitMap.val i) ∧
    sato_vartia_index unitMap unitMap unitMap unitMap 100
      = .error .zeroDivision ∧
    sato_vartia_index unitMap unitMap unitMap unitMap 100 ≠ .ok (1.0 * 100) := by
  have h4 : sato_vartia_index unitMap unitMap unitMap unitMap 100
      = .error .zeroDivision := by
    rw [sato_vartia_index,
      show unitMap.keys ∩ unitMap.keys ∩ unitMap.keys ∩ unitMap.keys
        = ({"a"} : Finset String) from by decide]
    rw [if_neg (by decide), if_pos ?_]
    refine ⟨"a", by decide, ?_⟩
    simp [expShare, Finset.sum_singleton, unitMap]
  exact ⟨by decide, fun i _ => by norm_num [unitMap], fun i _ => rfl, h4,
    by rw [h4]; exact fun h => Except.noConfusion h⟩

/-- C2 (amended): identity at no change.  For every input with strictly
positive prices and quantities, a nonempty matched set, unchanged prices on
the matched set, pairwise-distinct Sato-Vartia expenditure shares (without
which `sato_vartia_index` divides by zero instead) and a nonnegative
normalization value (through which Fisher's square root passes), all ten
dictionary-path index functions return exactly `1.0 ×` the normalization
value. -/
theorem C2_identity_at_no_change (p0 pt q0 qt : PMap) (nv : ℝ)
    (hp0 : ∀ i ∈ p0.keys, 0 < p0.val i)
    (hpt : ∀ i ∈ pt.keys, 0 < pt.val i)
    (hq0 : ∀ i ∈ q0.keys, 0 < q0.val i)
    (hqt : ∀ i ∈ qt.keys, 0 < qt.val i)
    (hne : p0.keys ∩ pt.keys ∩ q0.keys ∩ qt.keys ≠ ∅)
    (heq : ∀ i ∈ p0.keys ∩ pt.keys, pt.val i = p0.val i)
    (hsv : ∀ i ∈ p0.keys ∩ pt.keys ∩ q0.keys ∩ qt.keys,
      expShare pt qt (p0.keys ∩ pt.keys ∩ q0.keys ∩ qt.keys) i
        ≠ expShare p0 q0 (p0.keys ∩ pt.keys ∩ q0.keys ∩ qt.keys) i)
    (hnv : 0 ≤ nv) :
    jevons_index p0 pt nv = .ok (1.0 * nv) ∧
    dutot_index p0 pt nv = .ok (1.0 * nv) ∧
    carli_index p0 pt nv = .ok (1.0 * nv) ∧
    bmw_index p0 pt nv = .ok (1.0 * nv) ∧
    laspeyres_index p0 pt q0 nv = .ok (1.0 * nv) ∧
    paasche_index p0 pt qt nv = .ok (1.0 * nv) ∧
    fisher_index p0 pt q0 qt nv = .ok (1.0 * nv) ∧
    tornqvist_index p0 pt q0 qt nv = .ok (1.0 * nv) ∧
    walsh_index p0 pt q0 qt nv = .ok (1.0 * nv) ∧
    sato_vartia_index p0 pt q0 qt nv = .ok (1.0 * nv) := by
  have h1 : (1.0 : ℝ) * nv = nv := by norm_num
  rw [h1]
  have hne3L : p0.keys ∩ pt.keys ∩ q0.keys ≠ ∅ :=
    ne_empty_of_subset Finset.inter_subset_left hne
  have hne3P : p0.keys ∩ pt.keys ∩ qt.keys ≠ ∅ :=
    ne_empty_of_subset (matched4_subset_paasche p0 pt q0 qt) hne
  have hne2 : p0.keys ∩ pt.keys ≠ ∅ :=
    ne_empty_of_subset Finset.inter_subset_left hne3L
  have hp0m2 : ∀ i ∈ p0.keys ∩ pt.keys, 0 < p0.val i :=
    fun i hi => hp0 i (mem_matched2 hi).1
  have hratio : ∀ i ∈ p0.keys ∩ pt.keys, pt.val i / p0.val i = 1 :=
    fun i hi => by rw [heq i hi, div_self (ne_of_gt (hp0m2 i hi))]
  have hLsum : (∑ i ∈ p0.keys ∩ pt.keys ∩ q0.keys, q0.val i * pt.val i)
      = ∑ i ∈ p0.keys ∩ pt.keys ∩ q0.keys, q0.val i * p0.val i :=
    Finset.sum_congr rfl fun i hi => by rw [heq i (Finset.inter_subset_left hi)]
  have hLden : 0 < ∑ i ∈ p0.keys ∩ pt.keys ∩ q0.keys, q0.val i * p0.val i :=
    sum_pos_of_ne_empty hne3L fun i hi => by
      rcases mem_matched3 hi with ⟨h1m, -, h3m⟩
      exact mul_pos (hq0 i h3m) (hp0 i h1m)
  have hPsum : (∑ i ∈ p0.keys ∩ pt.keys ∩ qt.keys, qt.val i * pt.val i)
      = ∑ i ∈ p0.keys ∩ pt.keys ∩ qt.keys, qt.val i * p0.val i :=
    Finset.sum_congr rfl fun i hi => by rw [heq i (Finset.inter_subset_left hi)]
  have hPden : 0 < ∑ i ∈ p0.keys ∩ pt.keys ∩ qt.keys, qt.val i * p0.val i :=
    sum_pos_of_ne_empty hne3P fun i hi => by
      rcases mem_matched3 hi with ⟨h1m, -, h3m⟩
      exact mul_pos (hqt i h3m) (hp0 i h1m)
  have hL : laspeyres_index p0 pt q0 nv = .ok nv := by
    rw [laspeyres_index_ok _ _ _ _ hne3L, hLsum, div_self (ne_of_gt hLden), one_mul]
  have hP : paasche_index p0 pt qt nv = .ok nv := by
    rw [paasche_index_ok _ _ _ _ hne3P, hPsum, div_self (ne_of_gt hPden), one_mul]
  have hm42 : p0.keys ∩ pt.keys ∩ q0.keys ∩ qt.keys ⊆ p0.keys ∩ pt.keys :=
    fun x hx => Finset.inter_subset_left (Finset.inter_subset_left hx)
  have hlog0 : ∀ i ∈ p0.keys ∩ pt.keys ∩ q0.keys ∩ qt.keys,
      Real.log (pt.val i / p0.val i) = 0 :=
    fun i hi => by rw [hratio i (hm42 hi), Real.log_one]
  refine ⟨?_, ?_, ?_, ?_, hL, hP, ?_, ?_, ?_, ?_⟩
  · rw [jevons_index_ok _ _ _ hne2,
      Finset.prod_congr rfl (fun i hi => by rw [hratio i hi, Real.one_rpow]),
      Finset.prod_const_one, one_mul]
  · rw [dutot_index_ok _ _ _ hne2,
      Finset.sum_congr rfl (fun i hi => heq i hi),
      div_self (ne_of_gt (sum_pos_of_ne_empty hne2 hp0m2)), one_mul]
  · have hcard : (0 : ℝ) < (p0.keys ∩ pt.keys).card := by
      exact_mod_cast Finset.card_pos.mpr (Finset.nonempty_iff_ne_empty.mpr hne2)
    rw [carli_index_ok _ _ _ hne2, Finset.sum_congr rfl hratio,
      Finset.sum_const, nsmul_eq_mul, mul_one, div_self (ne_of_gt hcard), one_mul]
  · exact (bmw_index_identity p0 pt nv hne2 hp0m2 heq).2
  · rw [fisher_index, hL, hP]
    show Except.ok (Real.sqrt (nv * nv)) = Except.ok nv
    rw [Real.sqrt_mul_self hnv]
  · rw [tornqvist_index_ok _ _ _ _ _ hne,
      Finset.sum_congr rfl (fun i hi => by rw [hlog0 i hi, mul_zero]),
      Finset.sum_const_zero, Real.exp_zero, one_mul]
  · have hsum : (∑ i ∈ p0.keys ∩ pt.keys ∩ q0.keys ∩ qt.keys,
        Real.sqrt (q0.val i * qt.val i) * pt.val i)
        = ∑ i ∈ p0.keys ∩ pt.keys ∩ q0.keys ∩ qt.keys,
          Real.sqrt (q0.val i * qt.val i) * p0.val i :=
      Finset.sum_congr rfl fun i hi => by rw [heq i (hm42 hi)]
    have hden : 0 < ∑ i ∈ p0.keys ∩ pt.keys ∩ q0.keys ∩ qt.keys,
        Real.sqrt (q0.val i * qt.val i) * p0.val i :=
      sum_pos_of_ne_empty hne fun i hi => by
        rcases mem_matched4 hi with ⟨h1m, -, h3m, h4m⟩
        exact mul_pos (Real.sqrt_pos.mpr (mul_pos (hq0 i h3m) (hqt i h4m)))
          (hp0 i h1m)
    rw [walsh_index_ok _ _ _ _ _ hne, hsum, div_self (ne_of_gt hden), one_mul]
  · have hs0pos : ∀ i ∈ p0.keys ∩ pt.keys ∩ q0.keys ∩ qt.keys,
        0 < expShare p0 q0 (p0.keys ∩ pt.keys ∩ q0.keys ∩ qt.keys) i :=
      fun i hi => expShare_pos hne
        (fun j hj => hp0 j (mem_matched4 hj).1)
        (fun j hj => hq0 j (mem_matched4 hj).2.2.1) hi
    have hstpos : ∀ i ∈ p0.keys ∩ pt.keys ∩ q0.keys ∩ qt.keys,
        0 < expShare pt qt (p0.keys ∩ pt.keys ∩ q0.keys ∩ qt.keys) i :=
      fun i hi => expShare_pos hne
        (fun j hj => hpt j (mem_matched4 hj).2.1)
        (fun j hj => hqt j (mem_matched4 hj).2.2.2) hi
    have hnd : ∀ i ∈ p0.keys ∩ pt.keys ∩ q0.keys ∩ qt.keys,
        Real.log (expShare pt qt (p0.keys ∩ pt.keys ∩ q0.keys ∩ qt.keys) i)
          - Real.log (expShare p0 q0 (p0.keys ∩ pt.keys ∩ q0.keys ∩ qt.keys) i)
          ≠ 0 :=
      fun i hi => sv_logdiff_ne (hs0pos i hi) (hstpos i hi) (hsv i hi)
    have hds : 0 < ∑ i ∈ p0.keys ∩ pt.keys ∩ q0.keys ∩ qt.keys,
        svWeight p0 pt q0 qt (p0.keys ∩ pt.keys ∩ q0.keys ∩ qt.keys) i :=
      sum_pos_of_ne_empty hne fun i hi =>
        svWeight_pos (hs0pos i hi) (hstpos i hi) (hsv i hi)
    rw [sato_vartia_index_ok _ _ _ _ _ hne hnd (ne_of_gt hds),
      Finset.sum_congr rfl (fun i hi => by rw [hlog0 i hi, mul_zero]),
      Finset.sum_const_zero, Real.exp_zero, one_mul]

lemma sum_ab (f : String → ℝ) :
    ∑ i ∈ ({"a", "b"} : Finset String), f i = f "a" + f "b" := by
  rw [show ({"a", "b"} : Finset String) = insert "a" {"b"} from rfl,
    Finset.sum_insert (by decide), Finset.sum_singleton]

/-- Unchanged prices (`1` for both products in both periods) of the
no-change witness input. -/
noncomputable def idP : PMap := ⟨{"a", "b"}, fun _ => 1⟩

/-- Base quantities `{a:1, b:2}` of the no-change witness input. -/
noncomputable def idQ0 : PMap := ⟨{"a", "b"}, fun s => if s = "a" then 1 else 2⟩

/-- Comparison quantities `{a:2, b:1}` of the no-change witness input. -/
noncomputable def idQt : PMap := ⟨{"a", "b"}, fun s => if s = "a" then 2 else 1⟩

/-- C2 (witness): at unchanged unit prices with swapped quantities all ten
dictionary-path functions return `1.0 × 100`. -/
theorem C2_identity_at_no_change_witness :
    jevons_index idP idP 100 = .ok (1.0 * 100) ∧
    dutot_index idP idP 100 = .ok (1.0 * 100) ∧
    carli_index idP idP 100 = .ok (1.0 * 100) ∧
    bmw_index idP idP 100 = .ok (1.0 * 100) ∧
    laspeyres_index idP idP idQ0 100 = .ok (1.0 * 100) ∧
    paasche_index idP idP idQt 100 = .ok (1.0 * 100) ∧
    fisher_index idP idP idQ0 idQt 100 = .ok (1.0 * 100) ∧
    tornqvist_index idP idP idQ0 idQt 100 = .ok (1.0 * 100) ∧
    walsh_index idP idP idQ0 idQt 100 = .ok (1.0 * 100) ∧
    sato_vartia_index idP idP idQ0 idQt 100 = .ok (1.0 * 100) := by
  refine C2_identity_at_no_change idP idP idQ0 idQt 100
    (fun i _ => by norm_num [idP]) (fun i _ => by norm_num [idP])
    ?_ ?_ (by decide) (fun i _ => rfl) ?_ (by norm_num)
  · intro i hi
    simp only [idQ0, Finset.mem_insert, Finset.mem_singleton] at hi
    rcases hi with rfl | rfl <;> simp [idQ0]
  · intro i hi
    simp only [idQt, Finset.mem_insert, Finset.mem_singleton] at hi
    rcases hi with rfl | rfl <;> simp [idQt]
  · rw [show idP.keys ∩ idP.keys ∩ idQ0.keys ∩ idQt.keys
      = ({"a", "b"} : Finset String) from by decide]
    intro i hi
    simp only [Finset.mem_insert, Finset.mem_singleton] at hi
    rcases hi with rfl | rfl <;>
      · simp only [expShare, sum_ab]
        simp [idP, idQ0, idQt]
        norm_num

lemma scnPrices0_pos : ∀ i ∈ scnPrices0.keys, 0 < scnPrices0.val i := by
  intro i hi
  simp only [scnPrices0, Finset.mem_insert, Finset.mem_singleton] at hi
  rcases hi with rfl | rfl | rfl <;> simp [scnPrices0]

lemma scnPricesT_pos : ∀ i ∈ scnPricesT.keys, 0 < scnPricesT.val i := by
  intro i hi
  simp only [scnPricesT, Finset.mem_insert, Finset.mem_singleton] at hi
  rcases hi with rfl | rfl | rfl <;> simp [scnPricesT]

lemma scnQuantities0_pos : ∀ i ∈ scnQuantities0.keys, 0 < scnQuantities0.val i := by
  intro i hi
  simp only [scnQuantities0, Finset.mem_insert, Finset.mem_singleton] at hi
  rcases hi with rfl | rfl | rfl <;> simp [scnQuantities0]

lemma scnQuantitiesT_pos : ∀ i ∈ scnQuantitiesT.keys, 0 < scnQuantitiesT.val i := by
  intro i hi
  simp only [scnQuantitiesT, Finset.mem_insert, Finset.mem_singleton] at hi
  rcases hi with rfl | rfl | rfl <;> simp [scnQuantitiesT]

lemma scn_sv_distinct : ∀ i ∈ scnPrices0.keys ∩ scnPricesT.keys
      ∩ scnQuantities0.keys ∩ scnQuantitiesT.keys,
    expShare scnPricesT scnQuantitiesT
        (scnPrices0.keys ∩ scnPricesT.keys
          ∩ scnQuantities0.keys ∩ scnQuantitiesT.keys) i
      ≠ expShare scnPrices0 scnQuantities0
        (scnPrices0.keys ∩ scnPricesT.keys
          ∩ scnQuantities0.keys ∩ scnQuantitiesT.keys) i := by
  rw [scn_matched4]
  intro i hi
  simp only [Finset.mem_insert, Finset.mem_singleton] at hi
  rcases hi with rfl | rfl | rfl <;>
    · simp only [expShare, sum_abc]
      simp [scnPrices0, scnPricesT, scnQuantities0, scnQuantitiesT]
      norm_num

/-- C3: normalization linearity for every dictionary-path formula except
Fisher.  On every valid input (nonempty matched set, strictly positive
prices and quantities, Sato-Vartia weights defined), calling the function
with normalization value `k` returns exactly `k` times its value at
normalization value `1`. -/
theorem C3_normalization_linearity (p0 pt q0 qt : PMap) (k : ℝ)
    (hp0 : ∀ i ∈ p0.keys, 0 < p0.val i)
    (hpt : ∀ i ∈ pt.keys, 0 < pt.val i)
    (hq0 : ∀ i ∈ q0.keys, 0 < q0.val i)
    (hqt : ∀ i ∈ qt.keys, 0 < qt.val i)
    (hne : p0.keys ∩ pt.keys ∩ q0.keys ∩ qt.keys ≠ ∅)
    (hsv : ∀ i ∈ p0.keys ∩ pt.keys ∩ q0.keys ∩ qt.keys,
      expShare pt qt (p0.keys ∩ pt.keys ∩ q0.keys ∩ qt.keys) i
        ≠ expShare p0 q0 (p0.keys ∩ pt.keys ∩ q0.keys ∩ qt.keys) i) :
    (∃ r, jevons_index p0 pt 1 = .ok r ∧ jevons_index p0 pt k = .ok (r * k)) ∧
    (∃ r, dutot_index p0 pt 1 = .ok r ∧ dutot_index p0 pt k = .ok (r * k)) ∧
    (∃ r, carli_index p0 pt 1 = .ok r ∧ carli_index p0 pt k = .ok (r * k)) ∧
    (∃ r, bmw_index p0 pt 1 = .ok r ∧ bmw_index p0 pt k = .ok (r * k)) ∧
    (∃ r, laspeyres_index p0 pt q0 1 = .ok r ∧
      laspeyres_index p0 pt q0 k = .ok (r * k)) ∧
    (∃ r, paasche_index p0 pt qt 1 = .ok r ∧
      paasche_index p0 pt qt k = .ok (r * k)) ∧
    (∃ r, tornqvist_index p0 pt q0 qt 1 = .ok r ∧
      tornqvist_index p0 pt q0 qt k = .ok (r * k)) ∧
    (∃ r, walsh_index p0 pt q0 qt 1 = .ok r ∧
      walsh_index p0 pt q0 qt k = .ok (r * k)) ∧
    (∃ r, sato_vartia_index p0 pt q0 qt 1 = .ok r ∧
      sato_vartia_index p0 pt q0 qt k = .ok (r * k)) := by
  have hne3L : p0.keys ∩ pt.keys ∩ q0.keys ≠ ∅ :=
    ne_empty_of_subset Finset.inter_subset_left hne
  have hne3P : p0.keys ∩ pt.keys ∩ qt.keys ≠ ∅ :=
    ne_empty_of_subset (matched4_subset_paasche p0 pt q0 qt) hne
  have hne2 : p0.keys ∩ pt.keys ≠ ∅ :=
    ne_empty_of_subset Finset.inter_subset_left hne3L
  have hp0m2 : ∀ i ∈ p0.keys ∩ pt.keys, 0 < p0.val i :=
    fun i hi => hp0 i (mem_matched2 hi).1
  have hptm2 : ∀ i ∈ p0.keys ∩ pt.keys, 0 < pt.val i :=
    fun i hi => hpt i (mem_matched2 hi).2
  have hbd : (∑ i ∈ p0.keys ∩ pt.keys,
      (p0.val i / pt.val i) ^ ((1 : ℝ) / 2)) ≠ 0 :=
    ne_of_gt (bmw_denom_pos p0 pt hne2 hp0m2 hptm2)
  have hs0pos : ∀ i ∈ p0.keys ∩ pt.keys ∩ q0.keys ∩ qt.keys,
      0 < expShare p0 q0 (p0.keys ∩ pt.keys ∩ q0.keys ∩ qt.keys) i :=
    fun i hi => expShare_pos hne
      (fun j hj => hp0 j (mem_matched4 hj).1)
      (fun j hj => hq0 j (mem_matched4 hj).2.2.1) hi
  have hstpos : ∀ i ∈ p0.keys ∩ pt.keys ∩ q0.keys ∩ qt.keys,
      0 < expShare pt qt (p0.keys ∩ pt.keys ∩ q0.keys ∩ qt.keys) i :=
    fun i hi => expShare_pos hne
      (fun j hj => hpt j (mem_matched4 hj).2.1)
      (fun j hj => hqt j (mem_matched4 hj).2.2.2) hi
  have hnd : ∀ i ∈ p0.keys ∩ pt.keys ∩ q0.keys ∩ qt.keys,
      Real.log (expShare pt qt (p0.keys ∩ pt.keys ∩ q0.keys ∩ qt.keys) i)
        - Real.log (expShare p0 q0 (p0.keys ∩ pt.keys ∩ q0.keys ∩ qt.keys) i)
        ≠ 0 :=
    fun i hi => sv_logdiff_ne (hs0pos i hi) (hstpos i hi) (hsv i hi)
  have hds : (∑ i ∈ p0.keys ∩ pt.keys ∩ q0.keys ∩ qt.keys,
      svWeight p0 pt q0 qt (p0.keys ∩ pt.keys ∩ q0.keys ∩ qt.keys) i) ≠ 0 :=
    ne_of_gt (sum_pos_of_ne_empty hne fun i hi =>
      svWeight_pos (hs0pos i hi) (hstpos i hi) (hsv i hi))
  refine ⟨⟨_, jevons_index_ok _ _ _ hne2, ?_⟩,
    ⟨_, dutot_index_ok _ _ _ hne2, ?_⟩,
    ⟨_, carli_index_ok _ _ _ hne2, ?_⟩,
    ⟨_, bmw_index_ok _ _ _ hne2 hbd, ?_⟩,
    ⟨_, laspeyres_index_ok _ _ _ _ hne3L, ?_⟩,
    ⟨_, paasche_index_ok _ _ _ _ hne3P, ?_⟩,
    ⟨_, tornqvist_index_ok _ _ _ _ _ hne, ?_⟩,
    ⟨_, walsh_index_ok _ _ _ _ _ hne, ?_⟩,
    ⟨_, sato_vartia_index_ok _ _ _ _ _ hne hnd hds, ?_⟩⟩
  · rw [jevons_index_ok _ _ _ hne2, mul_one]
  · rw [dutot_index_ok _ _ _ hne2, mul_one]
  · rw [carli_index_ok _ _ _ hne2, mul_one]
  · rw [bmw_index_ok _ _ _ hne2 hbd, mul_one]
  · rw [laspeyres_index_ok _ _ _ _ hne3L, mul_one]
  · rw [paasche_index_ok _ _ _ _ hne3P, mul_one]
  · rw [tornqvist_index_ok _ _ _ _ _ hne, mul_one]
  · rw [walsh_index_ok _ _ _ _ _ hne, mul_one]
  · rw [sato_vartia_index_ok _ _ _ _ _ hne hnd hds, mul_one]

/-- C3 (witness): on the concrete scenario with `k = 2` every non-Fisher
formula at normalization `2` is exactly twice its value at normalization
`1`. -/
theorem C3_normalization_linearity_witness :
    (∃ r, jevons_index scnPrices0 scnPricesT 1 = .ok r ∧
      jevons_index scnPrices0 scnPricesT 2 = .ok (r * 2)) ∧
    (∃ r, dutot_index scnPrices0 scnPricesT 1 = .ok r ∧
      dutot_index scnPrices0 scnPricesT 2 = .ok (r * 2)) ∧
    (∃ r, carli_index scnPrices0 scnPricesT 1 = .ok r ∧
      carli_index scnPrices0 scnPricesT 2 = .ok (r * 2)) ∧
    (∃ r, bmw_index scnPrices0 scnPricesT 1 = .ok r ∧
      bmw_index scnPrices0 scnPricesT 2 = .ok (r * 2)) ∧
    (∃ r, laspeyres_index scnPrices0 scnPricesT scnQuantities0 1 = .ok r ∧
      laspeyres_index scnPrices0 scnPricesT scnQuantities0 2 = .ok (r * 2)) ∧
    (∃ r, paasche_index scnPrices0 scnPricesT scnQuantitiesT 1 = .ok r ∧
      paasche_index scnPrices0 scnPricesT scnQuantitiesT 2 = .ok (r * 2)) ∧
    (∃ r, tornqvist_index scnPrices0 scnPricesT scnQuantities0 scnQuantitiesT 1
        = .ok r ∧
      tornqvist_index scnPrices0 scnPricesT scnQuantities0 scnQuantitiesT 2
        = .ok (r * 2)) ∧
    (∃ r, walsh_index scnPrices0 scnPricesT scnQuantities0 scnQuantitiesT 1
        = .ok r ∧
      walsh_index scnPrices0 scnPricesT scnQuantities0 scnQuantitiesT 2
        = .ok (r * 2)) ∧
    (∃ r, sato_vartia_index scnPrices0 scnPricesT scnQuantities0 scnQuantitiesT 1
        = .ok r ∧
      sato_vartia_index scnPrices0 scnPricesT scnQuantities0 scnQuantitiesT 2
        = .ok (r * 2)) :=
  C3_normalization_linearity scnPrices0 scnPricesT scnQuantities0 scnQuantitiesT 2
    scnPrices0_pos scnPricesT_pos scnQuantities0_pos scnQuantitiesT_pos
    (by rw [scn_matched4]; decide) scn_sv_distinct

/-- C10: Fisher also satisfies normalization linearity.  Although the
normalization constant is applied to both sub-results before the square
root, `sqrt(k·L · k·P) = k·sqrt(L·P)` for `k > 0`, so Fisher at
normalization `k` is exactly `k` times Fisher at normalization `1`. -/
theorem C10_fisher_normalization_linearity (p0 pt q0 qt : PMap) (k : ℝ)
    (_hp0 : ∀ i ∈ p0.keys, 0 < p0.val i)
    (_hpt : ∀ i ∈ pt.keys, 0 < pt.val i)
    (_hq0 : ∀ i ∈ q0.keys, 0 < q0.val i)
    (_hqt : ∀ i ∈ qt.keys, 0 < qt.val i)
    (hne : p0.keys ∩ pt.keys ∩ q0.keys ∩ qt.keys ≠ ∅)
    (hk : 0 < k) :
    ∃ r, fisher_index p0 pt q0 qt 1 = .ok r ∧
      fisher_index p0 pt q0 qt k = .ok (k * r) := by
  have hne3L : p0.keys ∩ pt.keys ∩ q0.keys ≠ ∅ :=
    ne_empty_of_subset Finset.inter_subset_left hne
  have hne3P : p0.keys ∩ pt.keys ∩ qt.keys ≠ ∅ :=
    ne_empty_of_subset (matched4_subset_paasche p0 pt q0 qt) hne
  refine ⟨_, fisher_index_ok _ _ _ _ _ hne3L hne3P, ?_⟩
  rw [fisher_index_ok _ _ _ _ _ hne3L hne3P]
  congr 1
  set L := (∑ i ∈ p0.keys ∩ pt.keys ∩ q0.keys, q0.val i * pt.val i)
    / ∑ i ∈ p0.keys ∩ pt.keys ∩ q0.keys, q0.val i * p0.val i with hLdef
  set P := (∑ i ∈ p0.keys ∩ pt.keys ∩ qt.keys, qt.val i * pt.val i)
    / ∑ i ∈ p0.keys ∩ pt.keys ∩ qt.keys, qt.val i * p0.val i with hPdef
  rw [show L * k * (P * k) = L * P * (k * k) from by ring,
    Real.sqrt_mul' _ (mul_self_nonneg k), Real.sqrt_mul_self (le_of_lt hk),
    mul_one, mul_one, mul_comm]

/-- C10 (witness): on the concrete scenario, Fisher at normalization `2` is
exactly twice Fisher at normalization `1`. -/
theorem C10_fisher_normalization_linearity_witness :
    ∃ r, fisher_index scnPrices0 scnPricesT scnQuantities0 scnQuantitiesT 1
        = .ok r ∧
      fisher_index scnPrices0 scnPricesT scnQuantities0 scnQuantitiesT 2
        = .ok (2 * r) :=
  C10_fisher_normalization_linearity scnPrices0 scnPricesT scnQuantities0
    scnQuantitiesT 2 scnPrices0_pos scnPricesT_pos scnQuantities0_pos
    scnQuantitiesT_pos (by rw [scn_matched4]; decide) (by norm_num)

/-! ### Congruence: each formula depends only on the matched set and the
values on it -/

lemma expShare_congr {p q pr qr : PMap} {m : Finset String}
    (hp : ∀ j ∈ m, p.val j = pr.val j) (hq : ∀ j ∈ m, q.val j = qr.val j) :
    ∀ i ∈ m, expShare p q m i = expShare pr qr m i := by
  intro i hi
  unfold expShare
  rw [hp i hi, hq i hi,
    Finset.sum_congr rfl fun j hj => by rw [hp j hj, hq j hj]]

lemma jevons_index_congr {p0 pt p0r ptr : PMap} (nv : ℝ)
    (hm : p0.keys ∩ pt.keys = p0r.keys ∩ ptr.keys)
    (h0 : ∀ i ∈ p0r.keys ∩ ptr.keys, p0.val i = p0r.val i)
    (ht : ∀ i ∈ p0r.keys ∩ ptr.keys, pt.val i = ptr.val i) :
    jevons_index p0 pt nv = jevons_index p0r ptr nv := by
  simp only [jevons_index, hm]
  rw [Finset.prod_congr rfl fun i hi => by rw [h0 i hi, ht i hi]]

lemma dutot_index_congr {p0 pt p0r ptr : PMap} (nv : ℝ)
    (hm : p0.keys ∩ pt.keys = p0r.keys ∩ ptr.keys)
    (h0 : ∀ i ∈ p0r.keys ∩ ptr.keys, p0.val i = p0r.val i)
    (ht : ∀ i ∈ p0r.keys ∩ ptr.keys, pt.val i = ptr.val i) :
    dutot_index p0 pt nv = dutot_index p0r ptr nv := by
  simp only [dutot_index, hm]
  rw [Finset.sum_congr rfl fun i hi => ht i hi,
    Finset.sum_congr rfl fun i hi => h0 i hi]

lemma carli_index_congr {p0 pt p0r ptr : PMap} (nv : ℝ)
    (hm : p0.keys ∩ pt.keys = p0r.keys ∩ ptr.keys)
    (h0 : ∀ i ∈ p0r.keys ∩ ptr.keys, p0.val i = p0r.val i)
    (ht : ∀ i ∈ p0r.keys ∩ ptr.keys, pt.val i = ptr.val i) :
    carli_index p0 pt nv = carli_index p0r ptr nv := by
  simp only [carli_index, hm]
  rw [Finset.sum_congr rfl fun i hi => by rw [h0 i hi, ht i hi]]

lemma bmw_index_congr {p0 pt p0r ptr : PMap} (nv : ℝ)
    (hm : p0.keys ∩ pt.keys = p0r.keys ∩ ptr.keys)
    (h0 : ∀ i ∈ p0r.keys ∩ ptr.keys, p0.val i = p0r.val i)
    (ht : ∀ i ∈ p0r.keys ∩ ptr.keys, pt.val i = ptr.val i) :
    bmw_index p0 pt nv = bmw_index p0r ptr nv := by
  simp only [bmw_index, hm]
  rw [Finset.sum_congr rfl (fun i hi =>
      show (pt.val i / p0.val i) * (p0.val i / pt.val i) ^ ((1 : ℝ) / 2)
        = (ptr.val i / p0r.val i) * (p0r.val i / ptr.val i) ^ ((1 : ℝ) / 2)
      from by rw [h0 i hi, ht i hi]),
    Finset.sum_congr rfl (fun i hi =>
      show (p0.val i / pt.val i) ^ ((1 : ℝ) / 2)
        = (p0r.val i / ptr.val i) ^ ((1 : ℝ) / 2)
      from by rw [h0 i hi, ht i hi])]

lemma laspeyres_index_congr {p0 pt q0 p0r ptr q0r : PMap} (nv : ℝ)
    (hm : p0.keys ∩ pt.keys ∩ q0.keys = p0r.keys ∩ ptr.keys ∩ q0r.keys)
    (h0 : ∀ i ∈ p0r.keys ∩ ptr.keys ∩ q0r.keys, p0.val i = p0r.val i)
    (ht : ∀ i ∈ p0r.keys ∩ ptr.keys ∩ q0r.keys, pt.val i = ptr.val i)
    (hq : ∀ i ∈ p0r.keys ∩ ptr.keys ∩ q0r.keys, q0.val i = q0r.val i) :
    laspeyres_index p0 pt q0 nv = laspeyres_index p0r ptr q0r nv := by
  simp only [laspeyres_index, hm]
  rw [Finset.sum_congr rfl (fun i hi => by rw [hq i hi, ht i hi]),
    Finset.sum_congr rfl (fun i hi =>
      show q0.val i * p0.val i = q0r.val i * p0r.val i
      from by rw [hq i hi, h0 i hi])]

lemma paasche_index_congr {p0 pt qt p0r ptr qtr : PMap} (nv : ℝ)
    (hm : p0.keys ∩ pt.keys ∩ qt.keys = p0r.keys ∩ ptr.keys ∩ qtr.keys)
    (h0 : ∀ i ∈ p0r.keys ∩ ptr.keys ∩ qtr.keys, p0.val i = p0r.val i)
    (ht : ∀ i ∈ p0r.keys ∩ ptr.keys ∩ qtr.keys, pt.val i = ptr.val i)
    (hq : ∀ i ∈ p0r.keys ∩ ptr.keys ∩ qtr.keys, qt.val i = qtr.val i) :
    paasche_index p0 pt qt nv = paasche_index p0r ptr qtr nv := by
  simp only [paasche_index, hm]
  rw [Finset.sum_congr rfl (fun i hi => by rw [hq i hi, ht i hi]),
    Finset.sum_congr rfl (fun i hi =>
      show qt.val i * p0.val i = qtr.val i * p0r.val i
      from by rw [hq i hi, h0 i hi])]

lemma tornqvist_index_congr {p0 pt q0 qt p0r ptr q0r qtr : PMap} (nv : ℝ)
    (hm : p0.keys ∩ pt.keys ∩ q0.keys ∩ qt.keys
      = p0r.keys ∩ ptr.keys ∩ q0r.keys ∩ qtr.keys)
    (h0 : ∀ i ∈ p0r.keys ∩ ptr.keys ∩ q0r.keys ∩ qtr.keys, p0.val i = p0r.val i)
    (ht : ∀ i ∈ p0r.keys ∩ ptr.keys ∩ q0r.keys ∩ qtr.keys, pt.val i = ptr.val i)
    (hq0 : ∀ i ∈ p0r.keys ∩ ptr.keys ∩ q0r.keys ∩ qtr.keys, q0.val i = q0r.val i)
    (hqt : ∀ i ∈ p0r.keys ∩ ptr.keys ∩ q0r.keys ∩ qtr.keys, qt.val i = qtr.val i) :
    tornqvist_index p0 pt q0 qt nv = tornqvist_index p0r ptr q0r qtr nv := by
  simp only [tornqvist_index, hm]
  rw [Finset.sum_congr rfl fun i hi => by
    rw [expShare_congr h0 hq0 i hi, expShare_congr ht hqt i hi,
      h0 i hi, ht i hi]]

lemma walsh_index_congr {p0 pt q0 qt p0r ptr q0r qtr : PMap} (nv : ℝ)
    (hm : p0.keys ∩ pt.keys ∩ q0.keys ∩ qt.keys
      = p0r.keys ∩ ptr.keys ∩ q0r.keys ∩ qtr.keys)
    (h0 : ∀ i ∈ p0r.keys ∩ ptr.keys ∩ q0r.keys ∩ qtr.keys, p0.val i = p0r.val i)
    (ht : ∀ i ∈ p0r.keys ∩ ptr.keys ∩ q0r.keys ∩ qtr.keys, pt.val i = ptr.val i)
    (hq0 : ∀ i ∈ p0r.keys ∩ ptr.keys ∩ q0r.keys ∩ qtr.keys, q0.val i = q0r.val i)
    (hqt : ∀ i ∈ p0r.keys ∩ ptr.keys ∩ q0r.keys ∩ qtr.keys, qt.val i = qtr.val i) :
    walsh_index p0 pt q0 qt nv = walsh_index p0r ptr q0r qtr nv := by
  simp only [walsh_index, hm]
  rw [Finset.sum_congr rfl (fun i hi =>
      show Real.sqrt (q0.val i * qt.val i) * pt.val i
        = Real.sqrt (q0r.val i * qtr.val i) * ptr.val i
      from by rw [hq0 i hi, hqt i hi, ht i hi]),
    Finset.sum_congr rfl (fun i hi =>
      show Real.sqrt (q0.val i * qt.val i) * p0.val i
        = Real.sqrt (q0r.val i * qtr.val i) * p0r.val i
      from by rw [hq0 i hi, hqt i hi, h0 i hi])]

lemma sato_vartia_index_congr {p0 pt q0 qt p0r ptr q0r qtr : PMap} (nv : ℝ)
    (hm : p0.keys ∩ pt.keys ∩ q0.keys ∩ qt.keys
      = p0r.keys ∩ ptr.keys ∩ q0r.keys ∩ qtr.keys)
    (h0 : ∀ i ∈ p0r.keys ∩ ptr.keys ∩ q0r.keys ∩ qtr.keys, p0.val i = p0r.val i)
    (ht : ∀ i ∈ p0r.keys ∩ ptr.keys ∩ q0r.keys ∩ qtr.keys, pt.val i = ptr.val i)
    (hq0 : ∀ i ∈ p0r.keys ∩ ptr.keys ∩ q0r.keys ∩ qtr.keys, q0.val i = q0r.val i)
    (hqt : ∀ i ∈ p0r.keys ∩ ptr.keys ∩ q0r.keys ∩ qtr.keys, qt.val i = qtr.val i) :
    sato_vartia_index p0 pt q0 qt nv = sato_vartia_index p0r ptr q0r qtr nv := by
  have hs0 := expShare_congr (m := p0r.keys ∩ ptr.keys ∩ q0r.keys ∩ qtr.keys) h0 hq0
  have hst := expShare_congr (m := p0r.keys ∩ ptr.keys ∩ q0r.keys ∩ qtr.keys) ht hqt
  have hw : ∀ i ∈ p0r.keys ∩ ptr.keys ∩ q0r.keys ∩ qtr.keys,
      svWeight p0 pt q0 qt (p0r.keys ∩ ptr.keys ∩ q0r.keys ∩ qtr.keys) i
        = svWeight p0r ptr q0r qtr (p0r.keys ∩ ptr.keys ∩ q0r.keys ∩ qtr.keys) i :=
    fun i hi => by unfold svWeight; rw [hs0 i hi, hst i hi]
  have hcond : (∃ i ∈ p0r.keys ∩ ptr.keys ∩ q0r.keys ∩ qtr.keys,
      Real.log (expShare pt qt (p0r.keys ∩ ptr.keys ∩ q0r.keys ∩ qtr.keys) i)
        - Real.log (expShare p0 q0 (p0r.keys ∩ ptr.keys ∩ q0r.keys ∩ qtr.keys) i)
        = 0)
      = (∃ i ∈ p0r.keys ∩ ptr.keys ∩ q0r.keys ∩ qtr.keys,
      Real.log (expShare ptr qtr (p0r.keys ∩ ptr.keys ∩ q0r.keys ∩ qtr.keys) i)
        - Real.log (expShare p0r q0r (p0r.keys ∩ ptr.keys ∩ q0r.keys ∩ qtr.keys) i)
        = 0) := by
    apply propext
    constructor
    · rintro ⟨i, hi, hz⟩
      exact ⟨i, hi, by rw [← hs0 i hi, ← hst i hi]; exact hz⟩
    · rintro ⟨i, hi, hz⟩
      exact ⟨i, hi, by rw [hs0 i hi, hst i hi]; exact hz⟩
  have hwsum : (∑ i ∈ p0r.keys ∩ ptr.keys ∩ q0r.keys ∩ qtr.keys,
      svWeight p0 pt q0 qt (p0r.keys ∩ ptr.keys ∩ q0r.keys ∩ qtr.keys) i)
      = ∑ i ∈ p0r.keys ∩ ptr.keys ∩ q0r.keys ∩ qtr.keys,
        svWeight p0r ptr q0r qtr (p0r.keys ∩ ptr.keys ∩ q0r.keys ∩ qtr.keys) i :=
    Finset.sum_congr rfl hw
  simp only [sato_vartia_index, hm]
  simp only [hcond]
  simp only [hwsum]
  rw [Finset.sum_congr rfl fun i hi => show
    svWeight p0 pt q0 qt (p0r.keys ∩ ptr.keys ∩ q0r.keys ∩ qtr.keys) i
        / (∑ j ∈ p0r.keys ∩ ptr.keys ∩ q0r.keys ∩ qtr.keys,
          svWeight p0r ptr q0r qtr (p0r.keys ∩ ptr.keys ∩ q0r.keys ∩ qtr.keys) j)
        * Real.log (pt.val i / p0.val i)
      = svWeight p0r ptr q0r qtr (p0r.keys ∩ ptr.keys ∩ q0r.keys ∩ qtr.keys) i
        / (∑ j ∈ p0r.keys ∩ ptr.keys ∩ q0r.keys ∩ qtr.keys,
          svWeight p0r ptr q0r qtr (p0r.keys ∩ ptr.keys ∩ q0r.keys ∩ qtr.keys) j)
        * Real.log (ptr.val i / p0r.val i)
    from by rw [hw i hi, h0 i hi, ht i hi]]

lemma inter3_insert1 {A B C : Finset String} {k : String} (hk : k ∉ B ∨ k ∉ C) :
    Insert.insert k A ∩ B ∩ C = A ∩ B ∩ C := by
  ext x
  by_cases hx : x = k
  · subst hx
    rcases hk with h | h <;> simp [Finset.mem_inter, Finset.mem_insert, h]
  · simp [Finset.mem_inter, Finset.mem_insert, hx]

lemma inter3_insert2 {A B C : Finset String} {k : String} (hk : k ∉ A ∨ k ∉ C) :
    A ∩ Insert.insert k B ∩ C = A ∩ B ∩ C := by
  ext x
  by_cases hx : x = k
  · subst hx
    rcases hk with h | h <;> simp [Finset.mem_inter, Finset.mem_insert, h]
  · simp [Finset.mem_inter, Finset.mem_insert, hx]

lemma inter3_insert3 {A B C : Finset String} {k : String} (hk : k ∉ A ∨ k ∉ B) :
    A ∩ B ∩ Insert.insert k C = A ∩ B ∩ C := by
  ext x
  by_cases hx : x = k
  · subst hx
    rcases hk with h | h <;> simp [Finset.mem_inter, Finset.mem_insert, h]
  · simp [Finset.mem_inter, Finset.mem_insert, hx]

lemma inter4_insert1 {A B C D : Finset String} {k : String}
    (hk : k ∉ B ∨ k ∉ C ∨ k ∉ D) :
    Insert.insert k A ∩ B ∩ C ∩ D = A ∩ B ∩ C ∩ D := by
  ext x
  by_cases hx : x = k
  · subst hx
    rcases hk with h | h | h <;> simp [Finset.mem_inter, Finset.mem_insert, h]
  · simp [Finset.mem_inter, Finset.mem_insert, hx]

lemma inter4_insert2 {A B C D : Finset String} {k : String}
    (hk : k ∉ A ∨ k ∉ C ∨ k ∉ D) :
    A ∩ Insert.insert k B ∩ C ∩ D = A ∩ B ∩ C ∩ D := by
  ext x
  by_cases hx : x = k
  · subst hx
    rcases hk with h | h | h <;> simp [Finset.mem_inter, Finset.mem_insert, h]
  · simp [Finset.mem_inter, Finset.mem_insert, hx]

lemma inter4_insert3 {A B C D : Finset String} {k : String}
    (hk : k ∉ A ∨ k ∉ B ∨ k ∉ D) :
    A ∩ B ∩ Insert.insert k C ∩ D = A ∩ B ∩ C ∩ D := by
  ext x
  by_cases hx : x = k
  · subst hx
    rcases hk with h | h | h <;> simp [Finset.mem_inter, Finset.mem_insert, h]
  · simp [Finset.mem_inter, Finset.mem_insert, hx]

lemma inter4_insert4 {A B C D : Finset String} {k : String}
    (hk : k ∉ A ∨ k ∉ B ∨ k ∉ C) :
    A ∩ B ∩ C ∩ Insert.insert k D = A ∩ B ∩ C ∩ D := by
  ext x
  by_cases hx : x = k
  · subst hx
    rcases hk with h | h | h <;> simp [Finset.mem_inter, Finset.mem_insert, h]
  · simp [Finset.mem_inter, Finset.mem_insert, hx]

lemma insert_val_on {d : PMap} {m : Finset String} {k : String} (v : ℝ)
    (hkm : k ∉ m) : ∀ i ∈ m, (d.insert k v).val i = d.val i := by
  intro i hi
  have hik : i ≠ k := fun he => hkm (he ▸ hi)
  exact Function.update_noteq hik v d.val

/-- Base prices `{a:1, b:1}` of the matched-set-restriction
counterexample. -/
noncomputable def c7P0 : PMap := ⟨{"a", "b"}, fun _ => 1⟩

/-- Comparison prices `{a:1, b:2}` of the matched-set-restriction
counterexample. -/
noncomputable def c7Pt : PMap := ⟨{"a", "b"}, fun s => if s = "a" then 1 else 2⟩

/-- Base quantities `{a:1}` of the matched-set-restriction
counterexample. -/
noncomputable def c7Q0 : PMap := ⟨{"a"}, fun _ => 1⟩

/-- Comparison quantities `{a:1}` of the matched-set-restriction
counterexample. -/
noncomputable def c7Qt : PMap := ⟨{"a"}, fun _ => 1⟩

/-- C7 (counterexample): adding to `quantities_0` the entry `("b", 1)`,
whose key is absent from `quantities_t` (one of the other required
mappings of `fisher_index`), changes the Fisher result from `100` to
`sqrt(15000) ≈ 122.5`: the key is not excluded from the Laspeyres
sub-call's matched set. -/
theorem C7_fisher_counterexample :
    "b" ∉ c7Qt.keys ∧
    fisher_index c7P0 c7Pt c7Q0 c7Qt 100 = .ok 100 ∧
    fisher_index c7P0 c7Pt (c7Q0.insert "b" 1) c7Qt 100
      = .ok (Real.sqrt 15000) ∧
    fisher_index c7P0 c7Pt (c7Q0.insert "b" 1) c7Qt 100
      ≠ fisher_index c7P0 c7Pt c7Q0 c7Qt 100 := by
  have hbefore : fisher_index c7P0 c7Pt c7Q0 c7Qt 100 = .ok 100 := by
    rw [fisher_index_ok _ _ _ _ _ (by decide) (by decide),
      show c7P0.keys ∩ c7Pt.keys ∩ c7Q0.keys = {"a"} from by decide,
      show c7P0.keys ∩ c7Pt.keys ∩ c7Qt.keys = {"a"} from by decide]
    simp only [Finset.sum_singleton]
    simp [c7P0, c7Pt, c7Q0, c7Qt]
  have hafter : fisher_index c7P0 c7Pt (c7Q0.insert "b" 1) c7Qt 100
      = .ok (Real.sqrt 15000) := by
    rw [fisher_index_ok _ _ _ _ _ (by decide) (by decide),
      show c7P0.keys ∩ c7Pt.keys ∩ (c7Q0.insert "b" 1).keys
        = ({"a", "b"} : Finset String) from by decide,
      show c7P0.keys ∩ c7Pt.keys ∩ c7Qt.keys = {"a"} from by decide]
    congr 1
    congr 1
    simp only [sum_ab, Finset.sum_singleton]
    simp [c7P0, c7Pt, c7Q0, c7Qt, PMap.insert, Function.update]
    norm_num
  have hlt : (100 : ℝ) < Real.sqrt 15000 := by
    rw [show ((100 : ℝ)) = Real.sqrt (100 ^ 2) from
      (Real.sqrt_sq (by norm_num)).symm]
    apply Real.sqrt_lt_sqrt (by positivity)
    norm_num
  refine ⟨by decide, hbefore, hafter, ?_⟩
  rw [hbefore, hafter]
  intro h
  rw [Except.ok.injEq] at h
  exact absurd h (ne_of_gt hlt)

/-- C7 (amended): matched-set restriction.  For each of the nine
non-composite dictionary-path functions, adding to exactly one input
mapping an entry whose key is absent from at least one of the other
required mappings leaves the result unchanged (the key is excluded from
the matched set).  For `fisher_index` the same holds provided the key is
excluded from each sub-call's matched set: when inserting into a price
map, the key must be absent from a mapping of the Laspeyres sub-call and
from one of the Paasche sub-call; when inserting into a quantity map, it
must be absent from one of the two price maps (absence from the other
quantity map alone is not enough — see the counterexample). -/
theorem C7_matched_set_restriction (p0 pt q0 qt : PMap) (nv v : ℝ) (k : String) :
    (k ∉ pt.keys →
      jevons_index (p0.insert k v) pt nv = jevons_index p0 pt nv) ∧
    (k ∉ p0.keys →
      jevons_index p0 (pt.insert k v) nv = jevons_index p0 pt nv) ∧
    (k ∉ pt.keys →
      dutot_index (p0.insert k v) pt nv = dutot_index p0 pt nv) ∧
    (k ∉ p0.keys →
      dutot_index p0 (pt.insert k v) nv = dutot_index p0 pt nv) ∧
    (k ∉ pt.keys →
      carli_index (p0.insert k v) pt nv = carli_index p0 pt nv) ∧
    (k ∉ p0.keys →
      carli_index p0 (pt.insert k v) nv = carli_index p0 pt nv) ∧
    (k ∉ pt.keys →
      bmw_index (p0.insert k v) pt nv = bmw_index p0 pt nv) ∧
    (k ∉ p0.keys →
      bmw_index p0 (pt.insert k v) nv = bmw_index p0 pt nv) ∧
    (k ∉ pt.keys ∨ k ∉ q0.keys →
      laspeyres_index (p0.insert k v) pt q0 nv = laspeyres_index p0 pt q0 nv) ∧
    (k ∉ p0.keys ∨ k ∉ q0.keys →
      laspeyres_index p0 (pt.insert k v) q0 nv = laspeyres_index p0 pt q0 nv) ∧
    (k ∉ p0.keys ∨ k ∉ pt.keys →
      laspeyres_index p0 pt (q0.insert k v) nv = laspeyres_index p0 pt q0 nv) ∧
    (k ∉ pt.keys ∨ k ∉ qt.keys →
      paasche_index (p0.insert k v) pt qt nv = paasche_index p0 pt qt nv) ∧
    (k ∉ p0.keys ∨ k ∉ qt.keys →
      paasche_index p0 (pt.insert k v) qt nv = paasche_index p0 pt qt nv) ∧
    (k ∉ p0.keys ∨ k ∉ pt.keys →
      paasche_index p0 pt (qt.insert k v) nv = paasche_index p0 pt qt nv) ∧
    ((k ∉ pt.keys ∨ k ∉ q0.keys) ∧ (k ∉ pt.keys ∨ k ∉ qt.keys) →
      fisher_index (p0.insert k v) pt q0 qt nv
        = fisher_index p0 pt q0 qt nv) ∧
    ((k ∉ p0.keys ∨ k ∉ q0.keys) ∧ (k ∉ p0.keys ∨ k ∉ qt.keys) →
      fisher_index p0 (pt.insert k v) q0 qt nv
        = fisher_index p0 pt q0 qt nv) ∧
    (k ∉ p0.keys ∨ k ∉ pt.keys →
      fisher_index p0 pt (q0.insert k v) qt nv
        = fisher_index p0 pt q0 qt nv) ∧
    (k ∉ p0.keys ∨ k ∉ pt.keys →
      fisher_index p0 pt q0 (qt.insert k v) nv
        = fisher_index p0 pt q0 qt nv) ∧
    (k ∉ pt.keys ∨ k ∉ q0.keys ∨ k ∉ qt.keys →
      tornqvist_index (p0.insert k v) pt q0 qt nv
        = tornqvist_index p0 pt q0 qt nv) ∧
    (k ∉ p0.keys ∨ k ∉ q0.keys ∨ k ∉ qt.keys →
      tornqvist_index p0 (pt.insert k v) q0 qt nv
        = tornqvist_index p0 pt q0 qt nv) ∧
    (k ∉ p0.keys ∨ k ∉ pt.keys ∨ k ∉ qt.keys →
      tornqvist_index p0 pt (q0.insert k v) qt nv
        = tornqvist_index p0 pt q0 qt nv) ∧
    (k ∉ p0.keys ∨ k ∉ pt.keys ∨ k ∉ q0.keys →
      tornqvist_index p0 pt q0 (qt.insert k v) nv
        = tornqvist_index p0 pt q0 qt nv) ∧
    (k ∉ pt.keys ∨ k ∉ q0.keys ∨ k ∉ qt.keys →
      walsh_index (p0.insert k v) pt q0 qt nv = walsh_index p0 pt q0 qt nv) ∧
    (k ∉ p0.keys ∨ k ∉ q0.keys ∨ k ∉ qt.keys →
      walsh_index p0 (pt.insert k v) q0 qt nv = walsh_index p0 pt q0 qt nv) ∧
    (k ∉ p0.keys ∨ k ∉ pt.keys ∨ k ∉ qt.keys →
      walsh_index p0 pt (q0.insert k v) qt nv = walsh_index p0 pt q0 qt nv) ∧
    (k ∉ p0.keys ∨ k ∉ pt.keys ∨ k ∉ q0.keys →
      walsh_index p0 pt q0 (qt.insert k v) nv = walsh_index p0 pt q0 qt nv) ∧
    (k ∉ pt.keys ∨ k ∉ q0.keys ∨ k ∉ qt.keys →
      sato_vartia_index (p0.insert k v) pt q0 qt nv
        = sato_vartia_index p0 pt q0 qt nv) ∧
    (k ∉ p0.keys ∨ k ∉ q0.keys ∨ k ∉ qt.keys →
      sato_vartia_index p0 (pt.insert k v) q0 qt nv
        = sato_vartia_index p0 pt q0 qt nv) ∧
    (k ∉ p0.keys ∨ k ∉ pt.keys ∨ k ∉ qt.keys →
      sato_vartia_index p0 pt (q0.insert k v) qt nv
        = sato_vartia_index p0 pt q0 qt nv) ∧
    (k ∉ p0.keys ∨ k ∉ pt.keys ∨ k ∉ q0.keys →
      sato_vartia_index p0 pt q0 (qt.insert k v) nv
        = sato_vartia_index p0 pt q0 qt nv) := by
  have km2t : k ∉ pt.keys → k ∉ p0.keys ∩ pt.keys :=
    fun hk h => hk (mem_matched2 h).2
  have km20 : k ∉ p0.keys → k ∉ p0.keys ∩ pt.keys :=
    fun hk h => hk (mem_matched2 h).1
  have km3L1 : (k ∉ pt.keys ∨ k ∉ q0.keys) → k ∉ p0.keys ∩ pt.keys ∩ q0.keys :=
    fun hk h => by
      rcases mem_matched3 h with ⟨-, h2, h3⟩
      rcases hk with hk | hk
      exacts [hk h2, hk h3]
  have km3L2 : (k ∉ p0.keys ∨ k ∉ q0.keys) → k ∉ p0.keys ∩ pt.keys ∩ q0.keys :=
    fun hk h => by
      rcases mem_matched3 h with ⟨h1, -, h3⟩
      rcases hk with hk | hk
      exacts [hk h1, hk h3]
  have km3L3 : (k ∉ p0.keys ∨ k ∉ pt.keys) → k ∉ p0.keys ∩ pt.keys ∩ q0.keys :=
    fun hk h => by
      rcases mem_matched3 h with ⟨h1, h2, -⟩
      rcases hk with hk | hk
      exacts [hk h1, hk h2]
  have km3P1 : (k ∉ pt.keys ∨ k ∉ qt.keys) → k ∉ p0.keys ∩ pt.keys ∩ qt.keys :=
    fun hk h => by
      rcases mem_matched3 h with ⟨-, h2, h3⟩
      rcases hk with hk | hk
      exacts [hk h2, hk h3]
  have km3P2 : (k ∉ p0.keys ∨ k ∉ qt.keys) → k ∉ p0.keys ∩ pt.keys ∩ qt.keys :=
    fun hk h => by
      rcases mem_matched3 h with ⟨h1, -, h3⟩
      rcases hk with hk | hk
      exacts [hk h1, hk h3]
  have km3P3 : (k ∉ p0.keys ∨ k ∉ pt.keys) → k ∉ p0.keys ∩ pt.keys ∩ qt.keys :=
    fun hk h => by
      rcases mem_matched3 h with ⟨h1, h2, -⟩
      rcases hk with hk | hk
      exacts [hk h1, hk h2]
  have km41 : (k ∉ pt.keys ∨ k ∉ q0.keys ∨ k ∉ qt.keys) →
      k ∉ p0.keys ∩ pt.keys ∩ q0.keys ∩ qt.keys := fun hk h => by
    rcases mem_matched4 h with ⟨-, h2, h3, h4⟩
    rcases hk with hk | hk | hk
    exacts [hk h2, hk h3, hk h4]
  have km42 : (k ∉ p0.keys ∨ k ∉ q0.keys ∨ k ∉ qt.keys) →
      k ∉ p0.keys ∩ pt.keys ∩ q0.keys ∩ qt.keys := fun hk h => by
    rcases mem_matched4 h with ⟨h1, -, h3, h4⟩
    rcases hk with hk | hk | hk
    exacts [hk h1, hk h3, hk h4]
  have km43 : (k ∉ p0.keys ∨ k ∉ pt.keys ∨ k ∉ qt.keys) →
      k ∉ p0.keys ∩ pt.keys ∩ q0.keys ∩ qt.keys := fun hk h => by
    rcases mem_matched4 h with ⟨h1, h2, -, h4⟩
    rcases hk with hk | hk | hk
    exacts [hk h1, hk h2, hk h4]
  have km44 : (k ∉ p0.keys ∨ k ∉ pt.keys ∨ k ∉ q0.keys) →
      k ∉ p0.keys ∩ pt.keys ∩ q0.keys ∩ qt.keys := fun hk h => by
    rcases mem_matched4 h with ⟨h1, h2, h3, -⟩
    rcases hk with hk | hk | hk
    exacts [hk h1, hk h2, hk h3]
  refine ⟨?_, ?_, ?_, ?_, ?_, ?_, ?_, ?_, ?_, ?_, ?_, ?_, ?_, ?_, ?_, ?_, ?_,
    ?_, ?_, ?_, ?_, ?_, ?_, ?_, ?_, ?_, ?_, ?_, ?_, ?_⟩
  · intro hk
    exact jevons_index_congr nv (Finset.insert_inter_of_not_mem hk)
      (insert_val_on v (km2t hk)) (fun i _ => rfl)
  · intro hk
    exact jevons_index_congr nv (Finset.inter_insert_of_not_mem hk)
      (fun i _ => rfl) (insert_val_on v (km20 hk))
  · intro hk
    exact dutot_index_congr nv (Finset.insert_inter_of_not_mem hk)
      (insert_val_on v (km2t hk)) (fun i _ => rfl)
  · intro hk
    exact dutot_index_congr nv (Finset.inter_insert_of_not_mem hk)
      (fun i _ => rfl) (insert_val_on v (km20 hk))
  · intro hk
    exact carli_index_congr nv (Finset.insert_inter_of_not_mem hk)
      (insert_val_on v (km2t hk)) (fun i _ => rfl)
  · intro hk
    exact carli_index_congr nv (Finset.inter_insert_of_not_mem hk)
      (fun i _ => rfl) (insert_val_on v (km20 hk))
  · intro hk
    exact bmw_index_congr nv (Finset.insert_inter_of_not_mem hk)
      (insert_val_on v (km2t hk)) (fun i _ => rfl)
  · intro hk
    exact bmw_index_congr nv (Finset.inter_insert_of_not_mem hk)
      (fun i _ => rfl) (insert_val_on v (km20 hk))
  · intro hk
    exact laspeyres_index_congr nv (inter3_insert1 hk)
      (insert_val_on v (km3L1 hk)) (fun i _ => rfl) (fun i _ => rfl)
  · intro hk
    exact laspeyres_index_congr nv (inter3_insert2 hk)
      (fun i _ => rfl) (insert_val_on v (km3L2 hk)) (fun i _ => rfl)
  · intro hk
    exact laspeyres_index_congr nv (inter3_insert3 hk)
      (fun i _ => rfl) (fun i _ => rfl) (insert_val_on v (km3L3 hk))
  · intro hk
    exact paasche_index_congr nv (inter3_insert1 hk)
      (insert_val_on v (km3P1 hk)) (fun i _ => rfl) (fun i _ => rfl)
  · intro hk
    exact paasche_index_congr nv (inter3_insert2 hk)
      (fun i _ => rfl) (insert_val_on v (km3P2 hk)) (fun i _ => rfl)
  · intro hk
    exact paasche_index_congr nv (inter3_insert3 hk)
      (fun i _ => rfl) (fun i _ => rfl) (insert_val_on v (km3P3 hk))
  · intro hk
    unfold fisher_index
    rw [laspeyres_index_congr nv (inter3_insert1 hk.1)
        (insert_val_on v (km3L1 hk.1)) (fun i _ => rfl) (fun i _ => rfl),
      paasche_index_congr nv (inter3_insert1 hk.2)
        (insert_val_on v (km3P1 hk.2)) (fun i _ => rfl) (fun i _ => rfl)]
  · intro hk
    unfold fisher_index
    rw [laspeyres_index_congr nv (inter3_insert2 hk.1)
        (fun i _ => rfl) (insert_val_on v (km3L2 hk.1)) (fun i _ => rfl),
      paasche_index_congr nv (inter3_insert2 hk.2)
        (fun i _ => rfl) (insert_val_on v (km3P2 hk.2)) (fun i _ => rfl)]
  · intro hk
    unfold fisher_index
    rw [laspeyres_index_congr nv (inter3_insert3 hk)
      (fun i _ => rfl) (fun i _ => rfl) (insert_val_on v (km3L3 hk))]
  · intro hk
    unfold fisher_index
    rw [paasche_index_congr nv (inter3_insert3 hk)
      (fun i _ => rfl) (fun i _ => rfl) (insert_val_on v (km3P3 hk))]
  · intro hk
    exact tornqvist_index_congr nv (inter4_insert1 hk)
      (insert_val_on v (km41 hk)) (fun i _ => rfl) (fun i _ => rfl)
      (fun i _ => rfl)
  · intro hk
    exact tornqvist_index_congr nv (inter4_insert2 hk)
      (fun i _ => rfl) (insert_val_on v (km42 hk)) (fun i _ => rfl)
      (fun i _ => rfl)
  · intro hk
    exact tornqvist_index_congr nv (inter4_insert3 hk)
      (fun i _ => rfl) (fun i _ => rfl) (insert_val_on v (km43 hk))
      (fun i _ => rfl)
  · intro hk
    exact tornqvist_index_congr nv (inter4_insert4 hk)
      (fun i _ => rfl) (fun i _ => rfl) (fun i _ => rfl)
      (insert_val_on v (km44 hk))
  · intro hk
    exact walsh_index_congr nv (inter4_insert1 hk)
      (insert_val_on v (km41 hk)) (fun i _ => rfl) (fun i _ => rfl)
      (fun i _ => rfl)
  · intro hk
    exact walsh_index_congr nv (inter4_insert2 hk)
      (fun i _ => rfl) (insert_val_on v (km42 hk)) (fun i _ => rfl)
      (fun i _ => rfl)
  · intro hk
    exact walsh_index_congr nv (inter4_insert3 hk)
      (fun i _ => rfl) (fun i _ => rfl) (insert_val_on v (km43 hk))
      (fun i _ => rfl)
  · intro hk
    exact walsh_index_congr nv (inter4_insert4 hk)
      (fun i _ => rfl) (fun i _ => rfl) (fun i _ => rfl)
      (insert_val_on v (km44 hk))
  · intro hk
    exact sato_vartia_index_congr nv (inter4_insert1 hk)
      (insert_val_on v (km41 hk)) (fun i _ => rfl) (fun i _ => rfl)
      (fun i _ => rfl)
  · intro hk
    exact sato_vartia_index_congr nv (inter4_insert2 hk)
      (fun i _ => rfl) (insert_val_on v (km42 hk)) (fun i _ => rfl)
      (fun i _ => rfl)
  · intro hk
    exact sato_vartia_index_congr nv (inter4_insert3 hk)
      (fun i _ => rfl) (fun i _ => rfl) (insert_val_on v (km43 hk))
      (fun i _ => rfl)
  · intro hk
    exact sato_vartia_index_congr nv (inter4_insert4 hk)
      (fun i _ => rfl) (fun i _ => rfl) (fun i _ => rfl)
      (insert_val_on v (km44 hk))

/-- C7 (witness): on the concrete scenario, inserting the entry
`("z", 7)` — whose key is absent from every mapping — into any one of the
four mappings leaves all ten index functions unchanged. -/
theorem C7_matched_set_restriction_witness :
    jevons_index (scnPrices0.insert "z" 7) scnPricesT 100
      = jevons_index scnPrices0 scnPricesT 100 ∧
    jevons_index scnPrices0 (scnPricesT.insert "z" 7) 100
      = jevons_index scnPrices0 scnPricesT 100 ∧
    dutot_index (scnPrices0.insert "z" 7) scnPricesT 100
      = dutot_index scnPrices0 scnPricesT 100 ∧
    dutot_index scnPrices0 (scnPricesT.insert "z" 7) 100
      = dutot_index scnPrices0 scnPricesT 100 ∧
    carli_index (scnPrices0.insert "z" 7) scnPricesT 100
      = carli_index scnPrices0 scnPricesT 100 ∧
    carli_index scnPrices0 (scnPricesT.insert "z" 7) 100
      = carli_index scnPrices0 scnPricesT 100 ∧
    bmw_index (scnPrices0.insert "z" 7) scnPricesT 100
      = bmw_index scnPrices0 scnPricesT 100 ∧
    bmw_index scnPrices0 (scnPricesT.insert "z" 7) 100
      = bmw_index scnPrices0 scnPricesT 100 ∧
    laspeyres_index (scnPrices0.insert "z" 7) scnPricesT scnQuantities0 100
      = laspeyres_index scnPrices0 scnPricesT scnQuantities0 100 ∧
    laspeyres_index scnPrices0 (scnPricesT.insert "z" 7) scnQuantities0 100
      = laspeyres_index scnPrices0 scnPricesT scnQuantities0 100 ∧
    laspeyres_index scnPrices0 scnPricesT (scnQuantities0.insert "z" 7) 100
      = laspeyres_index scnPrices0 scnPricesT scnQuantities0 100 ∧
    paasche_index (scnPrices0.insert "z" 7) scnPricesT scnQuantitiesT 100
      = paasche_index scnPrices0 scnPricesT scnQuantitiesT 100 ∧
    paasche_index scnPrices0 (scnPricesT.insert "z" 7) scnQuantitiesT 100
      = paasche_index scnPrices0 scnPricesT scnQuantitiesT 100 ∧
    paasche_index scnPrices0 scnPricesT (scnQuantitiesT.insert "z" 7) 100
      = paasche_index scnPrices0 scnPricesT scnQuantitiesT 100 ∧
    fisher_index (scnPrices0.insert "z" 7) scnPricesT scnQuantities0
        scnQuantitiesT 100
      = fisher_index scnPrices0 scnPricesT scnQuantities0 scnQuantitiesT 100 ∧
    fisher_index scnPrices0 (scnPricesT.insert "z" 7) scnQuantities0
        scnQuantitiesT 100
      = fisher_index scnPrices0 scnPricesT scnQuantities0 scnQuantitiesT 100 ∧
    fisher_index scnPrices0 scnPricesT (scnQuantities0.insert "z" 7)
        scnQuantitiesT 100
      = fisher_index scnPrices0 scnPricesT scnQuantities0 scnQuantitiesT 100 ∧
    fisher_index scnPrices0 scnPricesT scnQuantities0
        (scnQuantitiesT.insert "z" 7) 100
      = fisher_index scnPrices0 scnPricesT scnQuantities0 scnQuantitiesT 100 ∧
    tornqvist_index (scnPrices0.insert "z" 7) scnPricesT scnQuantities0
        scnQuantitiesT 100
      = tornqvist_index scnPrices0 scnPricesT scnQuantities0 scnQuantitiesT 100 ∧
    tornqvist_index scnPrices0 (scnPricesT.insert "z" 7) scnQuantities0
        scnQuantitiesT 100
      = tornqvist_index scnPrices0 scnPricesT scnQuantities0 scnQuantitiesT 100 ∧
    tornqvist_index scnPrices0 scnPricesT (scnQuantities0.insert "z" 7)
        scnQuantitiesT 100
      = tornqvist_index scnPrices0 scnPricesT scnQuantities0 scnQuantitiesT 100 ∧
    tornqvist_index scnPrices0 scnPricesT scnQuantities0
        (scnQuantitiesT.insert "z" 7) 100
      = tornqvist_index scnPrices0 scnPricesT scnQuantities0 scnQuantitiesT 100 ∧
    walsh_index (scnPrices0.insert "z" 7) scnPricesT scnQuantities0
        scnQuantitiesT 100
      = walsh_index scnPrices0 scnPricesT scnQuantities0 scnQuantitiesT 100 ∧
    walsh_index scnPrices0 (scnPricesT.insert "z" 7) scnQuantities0
        scnQuantitiesT 100
      = walsh_index scnPrices0 scnPricesT scnQuantities0 scnQuantitiesT 100 ∧
    walsh_index scnPrices0 scnPricesT (scnQuantities0.insert "z" 7)
        scnQuantitiesT 100
      = walsh_index scnPrices0 scnPricesT scnQuantities0 scnQuantitiesT 100 ∧
    walsh_index scnPrices0 scnPricesT scnQuantities0
        (scnQuantitiesT.insert "z" 7) 100
      = walsh_index scnPrices0 scnPricesT scnQuantities0 scnQuantitiesT 100 ∧
    sato_vartia_index (scnPrices0.insert "z" 7) scnPricesT scnQuantities0
        scnQuantitiesT 100
      = sato_vartia_index scnPrices0 scnPricesT scnQuantities0
          scnQuantitiesT 100 ∧
    sato_vartia_index scnPrices0 (scnPricesT.insert "z" 7) scnQuantities0
        scnQuantitiesT 100
      = sato_vartia_index scnPrices0 scnPricesT scnQuantities0
          scnQuantitiesT 100 ∧
    sato_vartia_index scnPrices0 scnPricesT (scnQuantities0.insert "z" 7)
        scnQuantitiesT 100
      = sato_vartia_index scnPrices0 scnPricesT scnQuantities0
          scnQuantitiesT 100 ∧
    sato_vartia_index scnPrices0 scnPricesT scnQuantities0
        (scnQuantitiesT.insert "z" 7) 100
      = sato_vartia_index scnPrices0 scnPricesT scnQuantities0
          scnQuantitiesT 100 := by
  obtain ⟨h1, h2, h3, h4, h5, h6, h7, h8, h9, h10, h11, h12, h13, h14, h15,
    h16, h17, h18, h19, h20, h21, h22, h23, h24, h25, h26, h27, h28, h29, h30⟩ :=
    C7_matched_set_restriction scnPrices0 scnPricesT scnQuantities0
      scnQuantitiesT 100 7 "z"
  exact ⟨h1 (by decide), h2 (by decide), h3 (by decide), h4 (by decide),
    h5 (by decide), h6 (by decide), h7 (by decide), h8 (by decide),
    h9 (Or.inl (by decide)), h10 (Or.inl (by decide)), h11 (Or.inl (by decide)),
    h12 (Or.inl (by decide)), h13 (Or.inl (by decide)), h14 (Or.inl (by decide)),
    h15 ⟨Or.inl (by decide), Or.inl (by decide)⟩,
    h16 ⟨Or.inl (by decide), Or.inl (by decide)⟩,
    h17 (Or.inl (by decide)), h18 (Or.inl (by decide)),
    h19 (Or.inl (by decide)), h20 (Or.inl (by decide)),
    h21 (Or.inl (by decide)), h22 (Or.inl (by decide)),
    h23 (Or.inl (by decide)), h24 (Or.inl (by decide)),
    h25 (Or.inl (by decide)), h26 (Or.inl (by decide)),
    h27 (Or.inl (by decide)), h28 (Or.inl (by decide)),
    h29 (Or.inl (by decide)), h30 (Or.inl (by decide))⟩

/-! ### Equivalence of the tabular and dictionary paths -/

/-- Extensional agreement of two product-keyed series: the same key set and
the same values on it. -/
def PMap.Equiv (a b : PMap) : Prop :=
  a.keys = b.keys ∧ ∀ k ∈ b.keys, a.val k = b.val k

/-- `exp(mean(log r_i))` (the numpy Jevons) equals `∏ r_i^(1/n)` (the
dictionary Jevons) for positive ratios. -/
lemma exp_mean_log_eq_prod_rpow {m : Finset String} {f : String → ℝ}
    (hf : ∀ i ∈ m, 0 < f i) :
    Real.exp ((∑ i ∈ m, Real.log (f i)) / m.card)
      = ∏ i ∈ m, f i ^ ((1 : ℝ) / m.card) := by
  rw [Finset.prod_congr rfl fun i hi => Real.rpow_def_of_pos (hf i hi) _,
    ← Real.exp_sum, ← Finset.sum_mul, mul_one_div]

lemma dutot_index_from_df_eq_series (df : DataFrame) (b c : Int)
    (pc pidc tc : String) (nv : ℝ)
    (hcp : pc ∈ df.cols) (hcpid : pidc ∈ df.cols) (hct : tc ∈ df.cols) :
    dutot_index_from_df df b c pc pidc tc nv
      = dutot_index (df.series b pidc pc tc) (df.series c pidc pc tc) nv := by
  simp only [dutot_index_from_df, dutot_index, if_neg (not_not_intro hct),
    if_neg (not_not_intro hcpid), if_neg (not_not_intro hcp)]

lemma carli_index_from_df_eq_series (df : DataFrame) (b c : Int)
    (pc pidc tc : String) (nv : ℝ)
    (hc : ({pc, pidc, tc} : Finset String) ⊆ df.cols) :
    carli_index_from_df df b c pc pidc tc nv
      = carli_index (df.series b pidc pc tc) (df.series c pidc pc tc) nv := by
  simp only [carli_index_from_df, carli_index, if_neg (not_not_intro hc)]

lemma bmw_index_from_df_eq_series (df : DataFrame) (b c : Int)
    (pc pidc tc : String) (nv : ℝ)
    (hc : ({pc, pidc, tc} : Finset String) ⊆ df.cols) :
    bmw_index_from_df df b c pc pidc tc nv
      = bmw_index (df.series b pidc pc tc) (df.series c pidc pc tc) nv := by
  simp only [bmw_index_from_df, bmw_index, if_neg (not_not_intro hc),
    Real.sqrt_eq_rpow]

lemma laspeyres_index_from_df_eq_series (df : DataFrame) (b c : Int)
    (pc qc pidc tc : String) (nv : ℝ)
    (hc : ({pc, qc, pidc, tc} : Finset String) ⊆ df.cols) :
    laspeyres_index_from_df df b c pc qc pidc tc nv
      = laspeyres_index (df.series b pidc pc tc) (df.series c pidc pc tc)
          (df.series b pidc qc tc) nv := by
  simp only [laspeyres_index_from_df, laspeyres_index, if_neg (not_not_intro hc)]

lemma paasche_index_from_df_eq_series (df : DataFrame) (b c : Int)
    (pc qc pidc tc : String) (nv : ℝ)
    (hc : ({pc, qc, pidc, tc} : Finset String) ⊆ df.cols) :
    paasche_index_from_df df b c pc qc pidc tc nv
      = paasche_index (df.series b pidc pc tc) (df.series c pidc pc tc)
          (df.series c pidc qc tc) nv := by
  simp only [paasche_index_from_df, paasche_index, if_neg (not_not_intro hc)]

lemma tornqvist_index_from_df_eq_series (df : DataFrame) (b c : Int)
    (pc qc pidc tc : String) (nv : ℝ)
    (hc : ({pc, qc, pidc, tc} : Finset String) ⊆ df.cols) :
    tornqvist_index_from_df df b c pc qc pidc tc nv
      = tornqvist_index (df.series b pidc pc tc) (df.series c pidc pc tc)
          (df.series b pidc qc tc) (df.series c pidc qc tc) nv := by
  simp only [tornqvist_index_from_df, tornqvist_index, if_neg (not_not_intro hc)]

lemma walsh_index_from_df_eq_series (df : DataFrame) (b c : Int)
    (pc qc pidc tc : String) (nv : ℝ)
    (hc : ({pc, qc, pidc, tc} : Finset String) ⊆ df.cols) :
    walsh_index_from_df df b c pc qc pidc tc nv
      = walsh_index (df.series b pidc pc tc) (df.series c pidc pc tc)
          (df.series b pidc qc tc) (df.series c pidc qc tc) nv := by
  simp only [walsh_index_from_df, walsh_index, if_neg (not_not_intro hc)]

lemma fisher_index_from_df_eq_series (df : DataFrame) (b c : Int)
    (pc qc pidc tc : String) (nv : ℝ)
    (hc : ({pc, qc, pidc, tc} : Finset String) ⊆ df.cols) :
    fisher_index_from_df df b c pc qc pidc tc nv
      = fisher_index (df.series b pidc pc tc) (df.series c pidc pc tc)
          (df.series b pidc qc tc) (df.series c pidc qc tc) nv := by
  simp only [fisher_index_from_df, fisher_index,
    laspeyres_index_from_df_eq_series df b c pc qc pidc tc nv hc,
    paasche_index_from_df_eq_series df b c pc qc pidc tc nv hc]

/-- On the non-degenerate branch the numpy Sato-Vartia adapter computes the
same value as the dictionary function applied to the extracted series (the
error payloads differ only in the degenerate branch). -/
lemma sato_vartia_index_from_df_eq_series (df : DataFrame) (b c : Int)
    (pc qc pidc tc : String) (nv : ℝ)
    (hc : ({pc, qc, pidc, tc} : Finset String) ⊆ df.cols)
    (hnd : ∀ i ∈ (df.series b pidc pc tc).keys ∩ (df.series c pidc pc tc).keys
        ∩ (df.series b pidc qc tc).keys ∩ (df.series c pidc qc tc).keys,
      Real.log (expShare (df.series c pidc pc tc) (df.series c pidc qc tc)
          ((df.series b pidc pc tc).keys ∩ (df.series c pidc pc tc).keys
            ∩ (df.series b pidc qc tc).keys ∩ (df.series c pidc qc tc).keys) i)
        - Real.log (expShare (df.series b pidc pc tc) (df.series b pidc qc tc)
          ((df.series b pidc pc tc).keys ∩ (df.series c pidc pc tc).keys
            ∩ (df.series b pidc qc tc).keys ∩ (df.series c pidc qc tc).keys) i)
        ≠ 0)
    (hds : (∑ i ∈ (df.series b pidc pc tc).keys ∩ (df.series c pidc pc tc).keys
        ∩ (df.series b pidc qc tc).keys ∩ (df.series c pidc qc tc).keys,
      svWeight (df.series b pidc pc tc) (df.series c pidc pc tc)
        (df.series b pidc qc tc) (df.series c pidc qc tc)
        ((df.series b pidc pc tc).keys ∩ (df.series c pidc pc tc).keys
          ∩ (df.series b pidc qc tc).keys ∩ (df.series c pidc qc tc).keys) i)
      ≠ 0) :
    sato_vartia_index_from_df df b c pc qc pidc tc nv
      = sato_vartia_index (df.series b pidc pc tc) (df.series c pidc pc tc)
          (df.series b pidc qc tc) (df.series c pidc qc tc) nv := by
  have hne : ¬ ∃ i ∈ (df.series b pidc pc tc).keys ∩ (df.series c pidc pc tc).keys
      ∩ (df.series b pidc qc tc).keys ∩ (df.series c pidc qc tc).keys,
      Real.log (expShare (df.series c pidc pc tc) (df.series c pidc qc tc)
          ((df.series b pidc pc tc).keys ∩ (df.series c pidc pc tc).keys
            ∩ (df.series b pidc qc tc).keys ∩ (df.series c pidc qc tc).keys) i)
        - Real.log (expShare (df.series b pidc pc tc) (df.series b pidc qc tc)
          ((df.series b pidc pc tc).keys ∩ (df.series c pidc pc tc).keys
            ∩ (df.series b pidc qc tc).keys ∩ (df.series c pidc qc tc).keys) i)
        = 0 := by
    rintro ⟨i, hi, hz⟩
    exact hnd i hi hz
  simp only [sato_vartia_index_from_df, sato_vartia_index,
    if_neg (not_not_intro hc), if_neg hne, if_neg hds]

/-- C9: for every dataset expressible both as dictionaries and as an
equivalent two-period table (the series extracted by period-filtering and
product-id reindexing agree extensionally with the dictionaries), each
tabular adapter returns exactly the same real value as its dictionary-path
function — the two paths compute the identical arithmetic, so they agree to
every decimal place, in particular to 5. -/
theorem C9_path_equivalence (df : DataFrame) (base compared : Int)
    (pc qc pidc tc : String) (p0 pt q0 qt : PMap) (nv : ℝ)
    (hcp : pc ∈ df.cols) (hcq : qc ∈ df.cols)
    (hcpid : pidc ∈ df.cols) (hct : tc ∈ df.cols)
    (hP0 : (df.series base pidc pc tc).Equiv p0)
    (hPt : (df.series compared pidc pc tc).Equiv pt)
    (hQ0 : (df.series base pidc qc tc).Equiv q0)
    (hQt : (df.series compared pidc qc tc).Equiv qt)
    (hp0 : ∀ i ∈ p0.keys, 0 < p0.val i)
    (hpt : ∀ i ∈ pt.keys, 0 < pt.val i)
    (hq0 : ∀ i ∈ q0.keys, 0 < q0.val i)
    (hqt : ∀ i ∈ qt.keys, 0 < qt.val i)
    (hne : p0.keys ∩ pt.keys ∩ q0.keys ∩ qt.keys ≠ ∅)
    (hsv : ∀ i ∈ p0.keys ∩ pt.keys ∩ q0.keys ∩ qt.keys,
      expShare pt qt (p0.keys ∩ pt.keys ∩ q0.keys ∩ qt.keys) i
        ≠ expShare p0 q0 (p0.keys ∩ pt.keys ∩ q0.keys ∩ qt.keys) i) :
    jevons_index_from_df df base compared pc pidc tc nv
      = jevons_index p0 pt nv ∧
    dutot_index_from_df df base compared pc pidc tc nv
      = dutot_index p0 pt nv ∧
    carli_index_from_df df base compared pc pidc tc nv
      = carli_index p0 pt nv ∧
    bmw_index_from_df df base compared pc pidc tc nv
      = bmw_index p0 pt nv ∧
    laspeyres_index_from_df df base compared pc qc pidc tc nv
      = laspeyres_index p0 pt q0 nv ∧
    paasche_index_from_df df base compared pc qc pidc tc nv
      = paasche_index p0 pt qt nv ∧
    fisher_index_from_df df base compared pc qc pidc tc nv
      = fisher_index p0 pt q0 qt nv ∧
    tornqvist_index_from_df df base compared pc qc pidc tc nv
      = tornqvist_index p0 pt q0 qt nv ∧
    walsh_index_from_df df base compared pc qc pidc tc nv
      = walsh_index p0 pt q0 qt nv ∧
    sato_vartia_index_from_df df base compared pc qc pidc tc nv
      = sato_vartia_index p0 pt q0 qt nv := by
  have hc3 : ({pc, pidc, tc} : Finset String) ⊆ df.cols :=
    Finset.insert_subset_iff.mpr ⟨hcp, Finset.insert_subset_iff.mpr
      ⟨hcpid, Finset.singleton_subset_iff.mpr hct⟩⟩
  have hc4 : ({pc, qc, pidc, tc} : Finset String) ⊆ df.cols :=
    Finset.insert_subset_iff.mpr ⟨hcp, Finset.insert_subset_iff.mpr
      ⟨hcq, Finset.insert_subset_iff.mpr
        ⟨hcpid, Finset.singleton_subset_iff.mpr hct⟩⟩⟩
  have hm2 : (df.series base pidc pc tc).keys ∩ (df.series compared pidc pc tc).keys
      = p0.keys ∩ pt.keys := by rw [hP0.1, hPt.1]
  have hm3L : (df.series base pidc pc tc).keys
        ∩ (df.series compared pidc pc tc).keys
        ∩ (df.series base pidc qc tc).keys
      = p0.keys ∩ pt.keys ∩ q0.keys := by rw [hP0.1, hPt.1, hQ0.1]
  have hm3P : (df.series base pidc pc tc).keys
        ∩ (df.series compared pidc pc tc).keys
        ∩ (df.series compared pidc qc tc).keys
      = p0.keys ∩ pt.keys ∩ qt.keys := by rw [hP0.1, hPt.1, hQt.1]
  have hm4 : (df.series base pidc pc tc).keys
        ∩ (df.series compared pidc pc tc).keys
        ∩ (df.series base pidc qc tc).keys
        ∩ (df.series compared pidc qc tc).keys
      = p0.keys ∩ pt.keys ∩ q0.keys ∩ qt.keys := by
    rw [hP0.1, hPt.1, hQ0.1, hQt.1]
  have a02 : ∀ i ∈ p0.keys ∩ pt.keys,
      (df.series base pidc pc tc).val i = p0.val i :=
    fun i hi => hP0.2 i (mem_matched2 hi).1
  have at2 : ∀ i ∈ p0.keys ∩ pt.keys,
      (df.series compared pidc pc tc).val i = pt.val i :=
    fun i hi => hPt.2 i (mem_matched2 hi).2
  have hL : laspeyres_index_from_df df base compared pc qc pidc tc nv
      = laspeyres_index p0 pt q0 nv := by
    rw [laspeyres_index_from_df_eq_series df base compared pc qc pidc tc nv hc4]
    exact laspeyres_index_congr nv hm3L
      (fun i hi => hP0.2 i (mem_matched3 hi).1)
      (fun i hi => hPt.2 i (mem_matched3 hi).2.1)
      (fun i hi => hQ0.2 i (mem_matched3 hi).2.2)
  have hP : paasche_index_from_df df base compared pc qc pidc tc nv
      = paasche_index p0 pt qt nv := by
    rw [paasche_index_from_df_eq_series df base compared pc qc pidc tc nv hc4]
    exact paasche_index_congr nv hm3P
      (fun i hi => hP0.2 i (mem_matched3 hi).1)
      (fun i hi => hPt.2 i (mem_matched3 hi).2.1)
      (fun i hi => hQt.2 i (mem_matched3 hi).2.2)
  have hsS0 : ∀ i ∈ p0.keys ∩ pt.keys ∩ q0.keys ∩ qt.keys,
      expShare (df.series base pidc pc tc) (df.series base pidc qc tc)
        (p0.keys ∩ pt.keys ∩ q0.keys ∩ qt.keys) i
      = expShare p0 q0 (p0.keys ∩ pt.keys ∩ q0.keys ∩ qt.keys) i :=
    expShare_congr (fun j hj => hP0.2 j (mem_matched4 hj).1)
      (fun j hj => hQ0.2 j (mem_matched4 hj).2.2.1)
  have hsSt : ∀ i ∈ p0.keys ∩ pt.keys ∩ q0.keys ∩ qt.keys,
      expShare (df.series compared pidc pc tc) (df.series compared pidc qc tc)
        (p0.keys ∩ pt.keys ∩ q0.keys ∩ qt.keys) i
      = expShare pt qt (p0.keys ∩ pt.keys ∩ q0.keys ∩ qt.keys) i :=
    expShare_congr (fun j hj => hPt.2 j (mem_matched4 hj).2.1)
      (fun j hj => hQt.2 j (mem_matched4 hj).2.2.2)
  have hs0pos : ∀ i ∈ p0.keys ∩ pt.keys ∩ q0.keys ∩ qt.keys,
      0 < expShare p0 q0 (p0.keys ∩ pt.keys ∩ q0.keys ∩ qt.keys) i :=
    fun i hi => expShare_pos hne
      (fun j hj => hp0 j (mem_matched4 hj).1)
      (fun j hj => hq0 j (mem_matched4 hj).2.2.1) hi
  have hstpos : ∀ i ∈ p0.keys ∩ pt.keys ∩ q0.keys ∩ qt.keys,
      0 < expShare pt qt (p0.keys ∩ pt.keys ∩ q0.keys ∩ qt.keys) i :=
    fun i hi => expShare_pos hne
      (fun j hj => hpt j (mem_matched4 hj).2.1)
      (fun j hj => hqt j (mem_matched4 hj).2.2.2) hi
  have hnd : ∀ i ∈ p0.keys ∩ pt.keys ∩ q0.keys ∩ qt.keys,
      Real.log (expShare pt qt (p0.keys ∩ pt.keys ∩ q0.keys ∩ qt.keys) i)
        - Real.log (expShare p0 q0 (p0.keys ∩ pt.keys ∩ q0.keys ∩ qt.keys) i)
        ≠ 0 :=
    fun i hi => sv_logdiff_ne (hs0pos i hi) (hstpos i hi) (hsv i hi)
  have hds : (∑ i ∈ p0.keys ∩ pt.keys ∩ q0.keys ∩ qt.keys,
      svWeight p0 pt q0 qt (p0.keys ∩ pt.keys ∩ q0.keys ∩ qt.keys) i) ≠ 0 :=
    ne_of_gt (sum_pos_of_ne_empty hne fun i hi =>
      svWeight_pos (hs0pos i hi) (hstpos i hi) (hsv i hi))
  refine ⟨?_, ?_, ?_, ?_, hL, hP, ?_, ?_, ?_, ?_⟩
  · simp only [jevons_index_from_df, if_neg (not_not_intro hc3)]
    simp only [hP0.1, hPt.1]
    simp only [jevons_index]
    by_cases hm : p0.keys ∩ pt.keys = ∅
    · rw [if_pos hm, if_pos hm]
    · rw [if_neg hm, if_neg hm,
        Finset.sum_congr rfl (fun i hi => by rw [a02 i hi, at2 i hi]),
        exp_mean_log_eq_prod_rpow (fun i hi =>
          div_pos (hpt i (mem_matched2 hi).2) (hp0 i (mem_matched2 hi).1))]
  · rw [dutot_index_from_df_eq_series df base compared pc pidc tc nv
      hcp hcpid hct]
    exact dutot_index_congr nv hm2 a02 at2
  · rw [carli_index_from_df_eq_series df base compared pc pidc tc nv hc3]
    exact carli_index_congr nv hm2 a02 at2
  · rw [bmw_index_from_df_eq_series df base compared pc pidc tc nv hc3]
    exact bmw_index_congr nv hm2 a02 at2
  · rw [fisher_index_from_df_eq_series df base compared pc qc pidc tc nv hc4]
    unfold fisher_index
    rw [laspeyres_index_congr nv hm3L
        (fun i hi => hP0.2 i (mem_matched3 hi).1)
        (fun i hi => hPt.2 i (mem_matched3 hi).2.1)
        (fun i hi => hQ0.2 i (mem_matched3 hi).2.2),
      paasche_index_congr nv hm3P
        (fun i hi => hP0.2 i (mem_matched3 hi).1)
        (fun i hi => hPt.2 i (mem_matched3 hi).2.1)
        (fun i hi => hQt.2 i (mem_matched3 hi).2.2)]
  · rw [tornqvist_index_from_df_eq_series df base compared pc qc pidc tc nv hc4]
    exact tornqvist_index_congr nv hm4
      (fun i hi => hP0.2 i (mem_matched4 hi).1)
      (fun i hi => hPt.2 i (mem_matched4 hi).2.1)
      (fun i hi => hQ0.2 i (mem_matched4 hi).2.2.1)
      (fun i hi => hQt.2 i (mem_matched4 hi).2.2.2)
  · rw [walsh_index_from_df_eq_series df base compared pc qc pidc tc nv hc4]
    exact walsh_index_congr nv hm4
      (fun i hi => hP0.2 i (mem_matched4 hi).1)
      (fun i hi => hPt.2 i (mem_matched4 hi).2.1)
      (fun i hi => hQ0.2 i (mem_matched4 hi).2.2.1)
      (fun i hi => hQt.2 i (mem_matched4 hi).2.2.2)
  · rw [sato_vartia_index_from_df_eq_series df base compared pc qc pidc tc nv hc4
      (by
        simp only [hm4]
        intro i hi
        rw [hsS0 i hi, hsSt i hi]
        exact hnd i hi)
      (by
        simp only [hm4]
        rw [Finset.sum_congr rfl (fun i hi => show
          svWeight (df.series base pidc pc tc) (df.series compared pidc pc tc)
            (df.series base pidc qc tc) (df.series compared pidc qc tc)
            (p0.keys ∩ pt.keys ∩ q0.keys ∩ qt.keys) i
          = svWeight p0 pt q0 qt (p0.keys ∩ pt.keys ∩ q0.keys ∩ qt.keys) i
          from by unfold svWeight; rw [hsS0 i hi, hsSt i hi])]
        exact hds)]
    exact sato_vartia_index_congr nv hm4
      (fun i hi => hP0.2 i (mem_matched4 hi).1)
      (fun i hi => hPt.2 i (mem_matched4 hi).2.1)
      (fun i hi => hQ0.2 i (mem_matched4 hi).2.2.1)
      (fun i hi => hQt.2 i (mem_matched4 hi).2.2.2)

/-- One observation row of the concrete-scenario table. -/
noncomputable def scnRow (pid : String) (period : Int) (price quantity : ℝ) :
    String → Cell :=
  fun col => if col = "product_id" then Cell.str pid
    else if col = "time_period" then Cell.int period
    else if col = "price" then Cell.num price
    else Cell.num quantity

/-- The concrete-scenario observation table: three products observed in
periods `0` and `1` with the §8 prices and quantities. -/
noncomputable def scnDF : DataFrame :=
  ⟨{"product_id", "price", "quantity", "time_period"},
   [scnRow "a" 0 100 10, scnRow "b" 0 200 20, scnRow "c" 0 300 30,
    scnRow "a" 1 110 15, scnRow "b" 1 190 25, scnRow "c" 1 310 35]⟩

lemma scnDF_price0_equiv :
    (scnDF.series 0 "product_id" "price" "time_period").Equiv scnPrices0 := by
  constructor
  · decide
  · intro k hk
    simp only [scnPrices0, Finset.mem_insert, Finset.mem_singleton] at hk
    rcases hk with rfl | rfl | rfl <;>
      simp [DataFrame.series, scnDF, scnRow, Cell.isPeriod, Cell.asStr,
        Cell.asReal, scnPrices0, List.find?, List.filter]

lemma scnDF_priceT_equiv :
    (scnDF.series 1 "product_id" "price" "time_period").Equiv scnPricesT := by
  constructor
  · decide
  · intro k hk
    simp only [scnPricesT, Finset.mem_insert, Finset.mem_singleton] at hk
    rcases hk with rfl | rfl | rfl <;>
      simp [DataFrame.series, scnDF, scnRow, Cell.isPeriod, Cell.asStr,
        Cell.asReal, scnPricesT, List.find?, List.filter]

lemma scnDF_quantity0_equiv :
    (scnDF.series 0 "product_id" "quantity" "time_period").Equiv scnQuantities0 := by
  constructor
  · decide
  · intro k hk
    simp only [scnQuantities0, Finset.mem_insert, Finset.mem_singleton] at hk
    rcases hk with rfl | rfl | rfl <;>
      simp [DataFrame.series, scnDF, scnRow, Cell.isPeriod, Cell.asStr,
        Cell.asReal, scnQuantities0, List.find?, List.filter]

lemma scnDF_quantityT_equiv :
    (scnDF.series 1 "product_id" "quantity" "time_period").Equiv scnQuantitiesT := by
  constructor
  · decide
  · intro k hk
    simp only [scnQuantitiesT, Finset.mem_insert, Finset.mem_singleton] at hk
    rcases hk with rfl | rfl | rfl <;>
      simp [DataFrame.series, scnDF, scnRow, Cell.isPeriod, Cell.asStr,
        Cell.asReal, scnQuantitiesT, List.find?, List.filter]

/-- C9 (witness): on the concrete-scenario table every tabular adapter
returns exactly its dictionary-path value. -/
theorem C9_path_equivalence_witness :
    jevons_index_from_df scnDF 0 1 "price" "product_id" "time_period" 100
      = jevons_index scnPrices0 scnPricesT 100 ∧
    dutot_index_from_df scnDF 0 1 "price" "product_id" "time_period" 100
      = dutot_index scnPrices0 scnPricesT 100 ∧
    carli_index_from_df scnDF 0 1 "price" "product_id" "time_period" 100
      = carli_index scnPrices0 scnPricesT 100 ∧
    bmw_index_from_df scnDF 0 1 "price" "product_id" "time_period" 100
      = bmw_index scnPrices0 scnPricesT 100 ∧
    laspeyres_index_from_df scnDF 0 1 "price" "quantity" "product_id"
        "time_period" 100
      = laspeyres_index scnPrices0 scnPricesT scnQuantities0 100 ∧
    paasche_index_from_df scnDF 0 1 "price" "quantity" "product_id"
        "time_period" 100
      = paasche_index scnPrices0 scnPricesT scnQuantitiesT 100 ∧
    fisher_index_from_df scnDF 0 1 "price" "quantity" "product_id"
        "time_period" 100
      = fisher_index scnPrices0 scnPricesT scnQuantities0 scnQuantitiesT 100 ∧
    tornqvist_index_from_df scnDF 0 1 "price" "quantity" "product_id"
        "time_period" 100
      = tornqvist_index scnPrices0 scnPricesT scnQuantities0 scnQuantitiesT 100 ∧
    walsh_index_from_df scnDF 0 1 "price" "quantity" "product_id"
        "time_period" 100
      = walsh_index scnPrices0 scnPricesT scnQuantities0 scnQuantitiesT 100 ∧
    sato_vartia_index_from_df scnDF 0 1 "price" "quantity" "product_id"
        "time_period" 100
      = sato_vartia_index scnPrices0 scnPricesT scnQuantities0
          scnQuantitiesT 100 :=
  C9_path_equivalence scnDF 0 1 "price" "quantity" "product_id" "time_period"
    scnPrices0 scnPricesT scnQuantities0 scnQuantitiesT 100
    (by decide) (by decide) (by decide) (by decide)
    scnDF_price0_equiv scnDF_priceT_equiv scnDF_quantity0_equiv
    scnDF_quantityT_equiv
    scnPrices0_pos scnPricesT_pos scnQuantities0_pos scnQuantitiesT_pos
    (by rw [scn_matched4]; decide) scn_sv_distinct

/-- C6: `sato_vartia_index` has no degenerate-weight guard.  Whenever some
matched product's base and comparison expenditure shares are exactly equal,
the logarithmic-mean weight computation divides by zero: the dictionary path
surfaces the runtime `ZeroDivisionError` and the numpy tabular path a
propagated `NaN` — in both cases a condition distinct from the explicit
degenerate-weight ("Denominator is zero") error that `bmw_index` raises in
its analogous case. -/
theorem C6_sato_vartia_degenerate (df : DataFrame) (base compared : Int)
    (pc qc pidc tc : String) (p0 pt q0 qt : PMap) (nv : ℝ)
    (hcp : pc ∈ df.cols) (hcq : qc ∈ df.cols)
    (hcpid : pidc ∈ df.cols) (hct : tc ∈ df.cols)
    (hP0 : (df.series base pidc pc tc).Equiv p0)
    (hPt : (df.series compared pidc pc tc).Equiv pt)
    (hQ0 : (df.series base pidc qc tc).Equiv q0)
    (hQt : (df.series compared pidc qc tc).Equiv qt)
    (hne : p0.keys ∩ pt.keys ∩ q0.keys ∩ qt.keys ≠ ∅)
    (hdeg : ∃ i ∈ p0.keys ∩ pt.keys ∩ q0.keys ∩ qt.keys,
      expShare pt qt (p0.keys ∩ pt.keys ∩ q0.keys ∩ qt.keys) i
        = expShare p0 q0 (p0.keys ∩ pt.keys ∩ q0.keys ∩ qt.keys) i) :
    sato_vartia_index p0 pt q0 qt nv = .error .zeroDivision ∧
    sato_vartia_index_from_df df base compared pc qc pidc tc nv
      = .error .nanResult ∧
    Err.zeroDivision ≠ Err.zeroDenominator ∧
    Err.nanResult ≠ Err.zeroDenominator := by
  have hc4 : ({pc, qc, pidc, tc} : Finset String) ⊆ df.cols :=
    Finset.insert_subset_iff.mpr ⟨hcp, Finset.insert_subset_iff.mpr
      ⟨hcq, Finset.insert_subset_iff.mpr
        ⟨hcpid, Finset.singleton_subset_iff.mpr hct⟩⟩⟩
  have hm4 : (df.series base pidc pc tc).keys
        ∩ (df.series compared pidc pc tc).keys
        ∩ (df.series base pidc qc tc).keys
        ∩ (df.series compared pidc qc tc).keys
      = p0.keys ∩ pt.keys ∩ q0.keys ∩ qt.keys := by
    rw [hP0.1, hPt.1, hQ0.1, hQt.1]
  have hsS0 : ∀ i ∈ p0.keys ∩ pt.keys ∩ q0.keys ∩ qt.keys,
      expShare (df.series base pidc pc tc) (df.series base pidc qc tc)
        (p0.keys ∩ pt.keys ∩ q0.keys ∩ qt.keys) i
      = expShare p0 q0 (p0.keys ∩ pt.keys ∩ q0.keys ∩ qt.keys) i :=
    expShare_congr (fun j hj => hP0.2 j (mem_matched4 hj).1)
      (fun j hj => hQ0.2 j (mem_matched4 hj).2.2.1)
  have hsSt : ∀ i ∈ p0.keys ∩ pt.keys ∩ q0.keys ∩ qt.keys,
      expShare (df.series compared pidc pc tc) (df.series compared pidc qc tc)
        (p0.keys ∩ pt.keys ∩ q0.keys ∩ qt.keys) i
      = expShare pt qt (p0.keys ∩ pt.keys ∩ q0.keys ∩ qt.keys) i :=
    expShare_congr (fun j hj => hPt.2 j (mem_matched4 hj).2.1)
      (fun j hj => hQt.2 j (mem_matched4 hj).2.2.2)
  obtain ⟨i0, hi0, hzi⟩ := hdeg
  refine ⟨?_, ?_, by decide, by decide⟩
  · rw [sato_vartia_index, if_neg hne, if_pos ⟨i0, hi0, by rw [hzi, sub_self]⟩]
  · simp only [sato_vartia_index_from_df, if_neg (not_not_intro hc4)]
    simp only [hm4]
    rw [if_neg hne, if_pos ⟨i0, hi0, by
      rw [hsS0 i0 hi0, hsSt i0 hi0, hzi, sub_self]⟩]

/-- The one-product no-change observation table (price and quantity `1` in
both periods). -/
noncomputable def unitDF : DataFrame :=
  ⟨{"product_id", "price", "quantity", "time_period"},
   [scnRow "a" 0 1 1, scnRow "a" 1 1 1]⟩

lemma unitDF_price0_equiv :
    (unitDF.series 0 "product_id" "price" "time_period").Equiv unitMap := by
  refine ⟨by decide, ?_⟩
  intro k hk
  simp only [unitMap, Finset.mem_singleton] at hk
  subst hk
  simp [DataFrame.series, unitDF, scnRow, Cell.isPeriod, Cell.asStr,
    Cell.asReal, unitMap, List.find?, List.filter]

lemma unitDF_priceT_equiv :
    (unitDF.series 1 "product_id" "price" "time_period").Equiv unitMap := by
  refine ⟨by decide, ?_⟩
  intro k hk
  simp only [unitMap, Finset.mem_singleton] at hk
  subst hk
  simp [DataFrame.series, unitDF, scnRow, Cell.isPeriod, Cell.asStr,
    Cell.asReal, unitMap, List.find?, List.filter]

lemma unitDF_quantity0_equiv :
    (unitDF.series 0 "product_id" "quantity" "time_period").Equiv unitMap := by
  refine ⟨by decide, ?_⟩
  intro k hk
  simp only [unitMap, Finset.mem_singleton] at hk
  subst hk
  simp [DataFrame.series, unitDF, scnRow, Cell.isPeriod, Cell.asStr,
    Cell.asReal, unitMap, List.find?, List.filter]

lemma unitDF_quantityT_equiv :
    (unitDF.series 1 "product_id" "quantity" "time_period").Equiv unitMap := by
  refine ⟨by decide, ?_⟩
  intro k hk
  simp only [unitMap, Finset.mem_singleton] at hk
  subst hk
  simp [DataFrame.series, unitDF, scnRow, Cell.isPeriod, Cell.asStr,
    Cell.asReal, unitMap, List.find?, List.filter]

/-- C6 (witness): on the one-product no-change input both Sato-Vartia paths
fail with their respective unguarded-division conditions. -/
theorem C6_sato_vartia_degenerate_witness :
    sato_vartia_index unitMap unitMap unitMap unitMap 100
      = .error .zeroDivision ∧
    sato_vartia_index_from_df unitDF 0 1 "price" "quantity" "product_id"
        "time_period" 100
      = .error .nanResult ∧
    Err.zeroDivision ≠ Err.zeroDenominator ∧
    Err.nanResult ≠ Err.zeroDenominator :=
  C6_sato_vartia_degenerate unitDF 0 1 "price" "quantity" "product_id"
    "time_period" unitMap unitMap unitMap unitMap 100
    (by decide) (by decide) (by decide) (by decide)
    unitDF_price0_equiv unitDF_priceT_equiv unitDF_quantity0_equiv
    unitDF_quantityT_equiv (by decide) ⟨"a", by decide, rfl⟩

/-- A table with only the product-id and time-period columns; the `price`
column every adapter requires is absent. -/
noncomputable def noPriceDF : DataFrame := ⟨{"product_id", "time_period"}, []⟩

/-- C1: on a table whose `price` column is absent, every tabular adapter
except `dutot_index_from_df` fails with the distinct "missing columns"
schema condition (`AttributeError`); `dutot_index_from_df` alone has no
required-columns check in the source and instead surfaces the pandas
`KeyError` raised by the first access to the absent column — a different
condition from the schema error the specification requires. -/
theorem C1_dutot_schema_gap :
    "price" ∉ noPriceDF.cols ∧
    jevons_index_from_df noPriceDF 0 1 "price" "product_id" "time_period" 100
      = .error .missingColumns ∧
    carli_index_from_df noPriceDF 0 1 "price" "product_id" "time_period" 100
      = .error .missingColumns ∧
    bmw_index_from_df noPriceDF 0 1 "price" "product_id" "time_period" 100
      = .error .missingColumns ∧
    laspeyres_index_from_df noPriceDF 0 1 "price" "quantity" "product_id"
        "time_period" 100 = .error .missingColumns ∧
    paasche_index_from_df noPriceDF 0 1 "price" "quantity" "product_id"
        "time_period" 100 = .error .missingColumns ∧
    fisher_index_from_df noPriceDF 0 1 "price" "quantity" "product_id"
        "time_period" 100 = .error .missingColumns ∧
    tornqvist_index_from_df noPriceDF 0 1 "price" "quantity" "product_id"
        "time_period" 100 = .error .missingColumns ∧
    walsh_index_from_df noPriceDF 0 1 "price" "quantity" "product_id"
        "time_period" 100 = .error .missingColumns ∧
    sato_vartia_index_from_df noPriceDF 0 1 "price" "quantity" "product_id"
        "time_period" 100 = .error .missingColumns ∧
    dutot_index_from_df noPriceDF 0 1 "price" "product_id" "time_period" 100
      = .error (.keyError "price") ∧
    Err.keyError "price" ≠ Err.missingColumns := by
  have hlas : laspeyres_index_from_df noPriceDF 0 1 "price" "quantity"
      "product_id" "time_period" 100 = .error .missingColumns := by
    simp only [laspeyres_index_from_df, if_pos (by decide :
      ¬ ({"price", "quantity", "product_id", "time_period"} : Finset String)
        ⊆ noPriceDF.cols)]
  refine ⟨by decide, ?_, ?_, ?_, hlas, ?_, ?_, ?_, ?_, ?_, ?_, by decide⟩
  · simp only [jevons_index_from_df, if_pos (by decide :
      ¬ ({"price", "product_id", "time_period"} : Finset String)
        ⊆ noPriceDF.cols)]
  · simp only [carli_index_from_df, if_pos (by decide :
      ¬ ({"price", "product_id", "time_period"} : Finset String)
        ⊆ noPriceDF.cols)]
  · simp only [bmw_index_from_df, if_pos (by decide :
      ¬ ({"price", "product_id", "time_period"} : Finset String)
        ⊆ noPriceDF.cols)]
  · simp only [paasche_index_from_df, if_pos (by decide :
      ¬ ({"price", "quantity", "product_id", "time_period"} : Finset String)
        ⊆ noPriceDF.cols)]
  · rw [fisher_index_from_df, hlas]
    rfl
  · simp only [tornqvist_index_from_df, if_pos (by decide :
      ¬ ({"price", "quantity", "product_id", "time_period"} : Finset String)
        ⊆ noPriceDF.cols)]
  · simp only [walsh_index_from_df, if_pos (by decide :
      ¬ ({"price", "quantity", "product_id", "time_period"} : Finset String)
        ⊆ noPriceDF.cols)]
  · simp only [sato_vartia_index_from_df, if_pos (by decide :
      ¬ ({"price", "quantity", "product_id", "time_period"} : Finset String)
        ⊆ noPriceDF.cols)]
  · simp only [dutot_index_from_df, if_neg (by decide :
      ¬ ("time_period" ∉ noPriceDF.cols)), if_neg (by decide :
      ¬ ("product_id" ∉ noPriceDF.cols)), if_pos (by decide :
      "price" ∉ noPriceDF.cols)]
